import Mathlib

/-!
Verification of the bookwyrm federation core: activitypub base activity
(construction, serialization, model conversion, remote-id resolution) and
the abstract book-data connector (field mappings, availability gate,
work/edition resolution).  Python dicts are modelled as association lists
with insertion-order update semantics; Python exceptions are modelled with
an explicit error type; the persistent store and task queue (external
collaborators) are modelled from the spec where noted.
-/

namespace BookWyrm

/-- Values occurring in the JSON documents and object attributes handled by
the code: Python None, the dataclasses MISSING sentinel, strings, integers,
booleans, and lists of reference strings (reverse-relation items). -/
inductive Val where
  | vnone
  | vmissing
  | vstr (s : String)
  | vint (n : Int)
  | vbool (b : Bool)
  | vls (xs : List String)
deriving DecidableEq, Repr

/-- A Python dict as an association list (keys in insertion order). -/
abbrev Obj := List (String × Val)

/-- Dict lookup: value of the first entry with the given key. -/
def lookupKey (d : Obj) (k : String) : Option Val :=
  match d with
  | [] => none
  | (k', v) :: rest => if k' = k then some v else lookupKey rest k

/-- Dict assignment d[k] = v: replaces in place if the key is present,
appends otherwise (Python insertion-order semantics). -/
def insertKey (d : Obj) (k : String) (v : Val) : Obj :=
  match d with
  | [] => [(k, v)]
  | (k', v') :: rest =>
    if k' = k then (k, v) :: rest else (k', v') :: insertKey rest k v

/-- Python truthiness test, negated: None, empty string, zero, False and the
empty list are falsy; the MISSING sentinel is an ordinary object and truthy. -/
def isFalsy : Val → Bool
  | .vnone => true
  | .vmissing => false
  | .vstr s => s = ""
  | .vint n => n = 0
  | .vbool b => !b
  | .vls xs => xs.isEmpty

/-- Python errors raised by the embedded code. -/
inductive PyErr where
  | activitySerializerError (msg : String)
  | connectorException (msg : String)
  | connectionError
  | httpError (code : Nat)
  | attributeError
deriving DecidableEq, Repr

/- ## Field Mapper (connectors/abstract_connector.py, class Mapping) -/

/-- One declarative field mapping: a local field name, a remote field name
and a formatter (a transform that may raise, modelled as Except). -/
structure Mapping where
  local_field : String
  remote_field : String
  formatter : Val → Except Unit Val

/-- Mapping.__init__: the remote field defaults to the local one when the
given remote field is falsy (None or the empty string); the formatter
defaults to the identity. -/
def Mapping.make (lf : String) (rf : Option String) (fmt : Option (Val → Except Unit Val)) : Mapping :=
  { local_field := lf
  , remote_field :=
      match rf with
      | some r => if r = "" then lf else r
      | none => lf
  , formatter := fmt.getD Except.ok }

/-- Mapping.get_value: pull the remote field from the incoming json (absent
gives None), return None if the value is falsy, otherwise apply the
formatter, returning None if it raises. -/
def Mapping.get_value (m : Mapping) (data : Obj) : Val :=
  let value := (lookupKey data m.remote_field).getD Val.vnone
  if isFalsy value then Val.vnone
  else
    match m.formatter value with
    | .ok v => v
    | .error _ => Val.vnone

/-- dict_from_mappings: build a dict by assigning, for every mapping in
order, the mapping's result under its local field name. -/
def dict_from_mappings (data : Obj) (mappings : List Mapping) : Obj :=
  mappings.foldl (fun result m => insertKey result m.local_field (m.get_value data)) []

/- ## HTTP fetch wrapper (connectors/abstract_connector.py, get_data) -/

/-- Outcome of the raw HTTP GET performed by requests.get inside get_data:
a successful JSON document, a urllib3 RequestError, a builtin
ConnectionError, a non-ok HTTP status, or an ok response whose body is not
JSON. -/
inductive FetchOutcome where
  | ok (data : Obj)
  | requestError
  | connectionError
  | badStatus (code : Nat)
  | notJson
deriving Repr

/-- get_data: wraps the HTTP GET; a RequestError becomes a
ConnectorException, a non-ok status raises HTTPError via raise_for_status,
a JSON decode ValueError becomes a ConnectorException; a builtin
ConnectionError propagates unchanged. -/
def get_data (fetch : String → FetchOutcome) (url : String) : Except PyErr Obj :=
  match fetch url with
  | .ok d => .ok d
  | .requestError => .error (.connectorException "")
  | .connectionError => .error .connectionError
  | .badStatus c => .error (.httpError c)
  | .notJson => .error (.connectorException "")

/- ## Canonical Object (activitypub/base_activity.py, ActivityObject) -/

/-- One declared dataclass field: its name, its literal default (none
models dataclasses.MISSING) and its default factory, modelled by the value
the factory would return (none models MISSING). -/
structure FieldSpec where
  name : String
  default : Option Val
  default_factory : Option Val
deriving DecidableEq, Repr

/-- ActivityObject.__init__: for each declared field in order, take the
value from kwargs if the key is present; otherwise raise
ActivitySerializerError when the field has neither a literal default nor a
factory; otherwise set the field to field.default, which is the MISSING
sentinel when only a factory is declared (the factory is never called).
Unknown kwargs keys are ignored. -/
def ActivityObject.init (flds : List FieldSpec) (kwargs : Obj) : Except PyErr Obj :=
  match flds with
  | [] => .ok []
  | f :: rest =>
    match lookupKey kwargs f.name with
    | some v =>
      match ActivityObject.init rest kwargs with
      | .error e => .error e
      | .ok tail => .ok ((f.name, v) :: tail)
    | none =>
      if f.default = none ∧ f.default_factory = none then
        .error (.activitySerializerError ("Missing required field: " ++ f.name))
      else
        match ActivityObject.init rest kwargs with
        | .error e => .error e
        | .ok tail => .ok ((f.name, f.default.getD Val.vmissing) :: tail)

/-- The value ActivityObject.__init__ assigns to one field, assuming the
field is not a missing required one. -/
def resolveField (kwargs : Obj) (f : FieldSpec) : String × Val :=
  (f.name, match lookupKey kwargs f.name with
    | some v => v
    | none => f.default.getD Val.vmissing)

/-- The fixed activity-streams context URI added by serialize. -/
def contextURI : Val := Val.vstr "https://www.w3.org/ns/activitystreams"

/-- ActivityObject.serialize at the attribute level: the object's __dict__
gains the fixed context marker under the key at-context, and the very same
dict is both the object's new attribute dict and the returned value. -/
def ActivityObject.serialize (attrs : Obj) : Obj × Obj :=
  let d := insertKey attrs "@context" contextURI
  (d, d)

/-- ActivityObject.serialize at the heap level, to capture aliasing: the
object holds a reference to its attribute dict in a heap of dicts;
serialize updates the referenced dict in place with the context marker and
returns that same reference, not a copy. -/
def serializeHeap (dictRef : Nat) (h : Nat → Obj) : (Nat → Obj) × Nat :=
  let d := insertKey (h dictRef) "@context" contextURI
  (fun r => if r = dictRef then d else h r, dictRef)

/- ## Local entity store and field bindings (external collaborators, §3/§6) -/

/-- Modelled from the spec: a local entity row (§3 Local Entity), identified
by an internally generated key and carrying its model class tag and a field
dict; a federated entity's canonical URI lives in its remote_id field. -/
structure Instance where
  cls : String
  pk : Option Nat
  fields : Obj
deriving DecidableEq, Repr

/-- The persistent store, a list of entity rows. -/
abbrev Store := List Instance

/-- Modelled from the spec: the model classmethod find_existing_by_remote_id
(§6 store.findByRemoteId), returning the entity of the given model class
whose remote_id field equals the given canonical URI. -/
def findExistingByRemoteId (s : Store) (cls : String) (rid : String) : Option Instance :=
  s.find? (fun i => i.cls = cls ∧ lookupKey i.fields "remote_id" = some (.vstr rid))

/-- Modelled from the spec: one simple, image or many-to-many field binding
(§3 Field Binding) associating a model field with an activity field. -/
structure Binding where
  model_field : String
  activity_field : String
deriving DecidableEq, Repr

/-- Modelled from the spec: one reverse binding (§3 Field Binding):
the model field holding the reverse relation, the activity field carrying
the references, the related model and the related field set on it. -/
structure ReverseField where
  model_field : String
  activity_field : String
  related_model : String
  related_field : String
deriving DecidableEq, Repr

/-- A constructed activity object: its Python class tag and its attribute
dict, produced by ActivityObject.__init__. -/
structure Activity where
  cls : String
  attrs : Obj
deriving DecidableEq, Repr

/-- getattr on an activity object; declared fields are always set after
construction, so the default branch models reading an undeclared name. -/
def getattrD (act : Activity) (name : String) : Val :=
  (lookupKey act.attrs name).getD Val.vmissing

/-- Modelled from the spec: the statically declared conversion data of one
local entity class (§3): its name, the Canonical Object variant it expects
(activity_serializer), that variant's field schema, the optional ignore
predicate, and its simple / image / many-to-many / reverse bindings. -/
structure ModelClass where
  name : String
  activity_serializer : String
  schema : List FieldSpec
  ignore_activity : Option (Activity → Bool)
  simple_fields : List Binding
  image_fields : List Binding
  many_to_many_fields : List Binding
  deserialize_reverse_fields : List ReverseField

/-- model.activity_serializer(**data): run ActivityObject.__init__ over the
variant's schema and tag the result with the variant class. -/
def ModelClass.makeActivity (m : ModelClass) (data : Obj) : Except PyErr Activity :=
  match ActivityObject.init m.schema data with
  | .error e => .error e
  | .ok attrs => .ok { cls := m.activity_serializer, attrs := attrs }

/-- Modelled from the spec: the model classmethod find_existing (§4.3 dedup
key lookup), matching for federated entities on the canonical URI carried
in the candidate dict's id field. -/
def ModelClass.find_existing (m : ModelClass) (s : Store) (data : Obj) : Option Instance :=
  match lookupKey data "id" with
  | some (.vstr rid) => findExistingByRemoteId s m.name rid
  | _ => none

/-- A deferred reverse-resolution task descriptor, the arguments passed to
set_related_field.delay. -/
structure Task where
  related_model : String
  origin_model : String
  related_field : String
  related_remote_id : Val
  item : String
deriving DecidableEq, Repr

/-- The mutable world: the persistent store, the next generated primary
key, and the deferred task queue. -/
structure World where
  store : Store
  nextPk : Nat
  tasks : List Task
deriving DecidableEq, Repr

/-- Observable events of one conversion, in occurrence order. -/
inductive Ev where
  | setSimple (f : String)
  | setImage (f : String)
  | savedInstance
  | setM2M (f : String)
  | enqueued (t : Task)
  | fetched (url : String)
deriving DecidableEq, Repr

/-- Modelled from the spec: field.set_field_from_activity for simple and
many-to-many bindings (§3 Field Binding): copy the bound activity attribute
onto the bound model field. -/
def Binding.set_field_from_activity (b : Binding) (inst : Instance) (act : Activity) : Instance :=
  { inst with fields := insertKey inst.fields b.model_field (getattrD act b.activity_field) }

/-- Modelled from the spec: instance.save (§6 store.persist): a new row
gets the next generated key and is appended; an existing row is updated in
place. -/
def saveInstance (w : World) (inst : Instance) : Instance × World :=
  match inst.pk with
  | some pk =>
    (inst, { w with store := w.store.map (fun j => if j.pk = some pk then inst else j) })
  | none =>
    let inst' := { inst with pk := some w.nextPk }
    (inst', { w with store := w.store ++ [inst'], nextPk := w.nextPk + 1 })

/-- Write-through of a relation mutation on an already persisted row. -/
def updateStoreRow (w : World) (inst : Instance) : World :=
  { w with store := w.store.map (fun j => if j.pk = inst.pk ∧ j.cls = inst.cls then inst else j) }

/-- The simple-field loop of to_model, threading the instance and emitting
one event per binding in declaration order. -/
def applySimple (bs : List Binding) (inst : Instance) (act : Activity) : Instance × List Ev :=
  match bs with
  | [] => (inst, [])
  | b :: rest =>
    let inst' := b.set_field_from_activity inst act
    let (instF, evs) := applySimple rest inst' act
    (instF, .setSimple b.model_field :: evs)

/-- The image-field loop of to_model (bindings applied after the simple
fields because they may save early; the save flag is passed through). -/
def applyImage (bs : List Binding) (inst : Instance) (act : Activity) : Instance × List Ev :=
  match bs with
  | [] => (inst, [])
  | b :: rest =>
    let inst' := b.set_field_from_activity inst act
    let (instF, evs) := applyImage rest inst' act
    (instF, .setImage b.model_field :: evs)

/-- The many-to-many loop of to_model, run after the instance is saved. -/
def applyM2M (bs : List Binding) (inst : Instance) (act : Activity) : Instance × List Ev :=
  match bs with
  | [] => (inst, [])
  | b :: rest =>
    let inst' := b.set_field_from_activity inst act
    let (instF, evs) := applyM2M rest inst' act
    (instF, .setM2M b.model_field :: evs)

/-- The deferred tasks scheduled for one reverse binding: skipped when the
activity field is None or MISSING, otherwise one set_related_field.delay
per item of the field's value. -/
def reverseTasksFor (m : ModelClass) (inst : Instance) (act : Activity) (rf : ReverseField) : List Task :=
  let values := getattrD act rf.activity_field
  if values = .vnone ∨ values = .vmissing then []
  else
    match values with
    | .vls items =>
      items.map (fun item =>
        { related_model := rf.related_model
        , origin_model := m.name
        , related_field := rf.related_field
        , related_remote_id := (lookupKey inst.fields "remote_id").getD Val.vmissing
        , item := item })
    | _ => []

/-- All deferred tasks scheduled by the reverse-field loop of to_model. -/
def reverseTasks (m : ModelClass) (inst : Instance) (act : Activity) : List Task :=
  (m.deserialize_reverse_fields.map (reverseTasksFor m inst act)).flatten

/-- ActivityObject.to_model: verify the variant, honor the ignore
predicate, resolve the target instance (given instance, else dedup lookup
over the serialized dict, else a fresh one), apply simple then image
bindings, return early without persisting when save is false, otherwise
save within a transaction, apply many-to-many bindings (written through),
and enqueue one deferred reverse-resolution task per item of each present
reverse field.  The serialize call made for the dedup lookup mutates the
activity's attribute dict, which is threaded onward. -/
def ActivityObject.to_model (m : ModelClass) (act : Activity) (instOpt : Option Instance)
    (save : Bool) (w : World) : Except PyErr (Option Instance) × World × List Ev :=
  if act.cls ≠ m.activity_serializer then
    (.error (.activitySerializerError
      ("Wrong activity type \x22" ++ act.cls ++ "\x22 for model \x22" ++ m.name ++ "\x22")), w, [])
  else if (match m.ignore_activity with | some p => p act | none => false) then
    (.ok instOpt, w, [])
  else
    let (inst0, act') :=
      match instOpt with
      | some i => (i, act)
      | none =>
        let actSer : Activity := { act with attrs := (ActivityObject.serialize act.attrs).1 }
        match m.find_existing w.store (ActivityObject.serialize act.attrs).2 with
        | some i => (i, actSer)
        | none => ({ cls := m.name, pk := none, fields := [] }, actSer)
    let (inst1, evS) := applySimple m.simple_fields inst0 act'
    let (inst2, evI) := applyImage m.image_fields inst1 act'
    if ¬save then
      (.ok (some inst2), w, evS ++ evI)
    else
      let (inst3, w1) := saveInstance w inst2
      let (inst4, evM) := applyM2M m.many_to_many_fields inst3 act'
      let w2 := updateStoreRow w1 inst4
      let ts := reverseTasks m inst4 act'
      (.ok (some inst4), { w2 with tasks := w2.tasks ++ ts }, evS ++ evI ++ [.savedInstance] ++ evM ++ ts.map Ev.enqueued)

/- ## Remote Resolver (activitypub/base_activity.py, resolve_remote_id) -/

/-- resolve_remote_id: return the dedup hit immediately unless refreshing;
otherwise fetch the document (a ConnectorException or ConnectionError from
get_data becomes an ActivitySerializerError naming the model and the remote
id; any other error propagates unchanged), retry the dedup on the
document's own identity, and otherwise construct the activity and convert
it, updating the dedup hit when refreshing. -/
def resolve_remote_id (m : ModelClass) (fetch : String → FetchOutcome) (remote_id : String)
    (refresh : Bool) (save : Bool) (w : World) : Except PyErr (Option Instance) × World × List Ev :=
  let result := findExistingByRemoteId w.store m.name remote_id
  if result.isSome ∧ ¬refresh then
    (.ok result, w, [])
  else
    match get_data fetch remote_id with
    | .error (.connectorException _) =>
      (.error (.activitySerializerError
        ("Could not connect to host for remote_id in " ++ m.name ++ " model: " ++ remote_id)), w, [])
    | .error .connectionError =>
      (.error (.activitySerializerError
        ("Could not connect to host for remote_id in " ++ m.name ++ " model: " ++ remote_id)), w, [])
    | .error e => (.error e, w, [])
    | .ok data =>
      let fev : List Ev := [.fetched remote_id]
      let (result2, early) :=
        match result with
        | none =>
          (match m.find_existing w.store data with
           | some r => (some r, !refresh)
           | none => (none, false))
        | some r => (some r, false)
      if early then
        (.ok result2, w, fev)
      else
        match m.makeActivity data with
        | .error e => (.error e, w, fev)
        | .ok item =>
          let (r, w', evs) := ActivityObject.to_model m item result2 save w
          (r, w', fev ++ evs)

/- ## Connector Framework (connectors/abstract_connector.py) -/

/-- One configured connector: the connector record's settings copied at
construction (identifier, query ceiling), the live query counter, the book
field mappings, and the abstract per-source extension points (predicates
and extractors, whose KeyError is modelled as Except failure). -/
structure Connector where
  identifier : String
  max_query_count : Option Nat
  query_count : Nat
  book_mappings : List Mapping
  is_work_data : Obj → Bool
  get_edition_from_work_data : Obj → Except Unit Obj
  get_work_from_edition_data : Obj → Except Unit Obj
  get_authors_from_data : Obj → List String

/-- AbstractConnector.is_available: false once the connector record's query
counter has reached the configured ceiling; true when no ceiling is set. -/
def AbstractConnector.is_available (c : Connector) : Bool :=
  match c.max_query_count with
  | some mx => if mx ≤ c.query_count then false else true
  | none => true

/-- Modelled from the spec: each search call increments the connector
record's query counter regardless of the search's outcome (§3 Connector
Record: query-count mutation happens per search call; §8: independent of
search success/failure).  The incrementing statement lives outside the
sources under verification. -/
def searchStep (c : Connector) (outcome : Bool) : Connector :=
  let _ := outcome
  { c with query_count := c.query_count + 1 }

/-- A sequence of searches with the given outcomes, applied in order. -/
def runSearches (c : Connector) (outcomes : List Bool) : Connector :=
  outcomes.foldl searchStep c

/-- The primary key of a saved row as a stored value. -/
def pkVal (i : Instance) : Val :=
  match i.pk with
  | some n => .vint (Int.ofNat n)
  | none => .vnone

/-- The author list held in an entity's authors relation. -/
def authorsOf (inst : Instance) : List String :=
  match lookupKey inst.fields "authors" with
  | some (.vls xs) => xs
  | _ => []

/-- Modelled from the spec: relation .add with set semantics — append each
author not already related. -/
def addAuthors (inst : Instance) (auths : List String) : Instance :=
  let merged := auths.foldl (fun cur a => if a ∈ cur then cur else cur ++ [a]) (authorsOf inst)
  { inst with fields := insertKey inst.fields "authors" (Val.vls merged) }

/-- Modelled from the spec: relation .set — replace the related set. -/
def setAuthors (inst : Instance) (auths : List String) : Instance :=
  { inst with fields := insertKey inst.fields "authors" (.vls auths) }

/-- Modelled from the spec: a work's get_default_editon (§4.7 sets the
work's default-edition pointer): the row referenced by the work's
default_edition field.  The method itself lives outside the sources under
verification; only its caller does. -/
def get_default_editon (s : Store) (work : Instance) : Option Instance :=
  match lookupKey work.fields "default_edition" with
  | some (.vint n) => s.find? (fun i => i.pk.map Int.ofNat = some n)
  | _ => none

/-- AbstractConnector.create_edition_from_data: map the edition payload,
attach the work's canonical URI under the work key, construct and convert
the Edition activity, attach the connector identity and save, point the
work's default edition at it and save the work, then attach the edition's
authors, copying the work's when the edition has none. -/
def create_edition_from_data (c : Connector) (editionM : ModelClass) (work : Instance)
    (edition_data : Obj) (w : World) : Except PyErr (Option Instance) × World × List Ev :=
  let mapped1 := dict_from_mappings edition_data c.book_mappings
  let mapped2 := insertKey mapped1 "work" ((lookupKey work.fields "remote_id").getD Val.vmissing)
  match editionM.makeActivity mapped2 with
  | .error e => (.error e, w, [])
  | .ok act =>
    match ActivityObject.to_model editionM act none true w with
    | (.error e, w1, evs) => (.error e, w1, evs)
    | (.ok none, w1, evs) => (.error .attributeError, w1, evs)
    | (.ok (some ed0), w1, evs) =>
      let ed1 := { ed0 with fields := insertKey ed0.fields "connector" (.vstr c.identifier) }
      let (ed2, w2) := saveInstance w1 ed1
      let work1 := { work with fields := insertKey work.fields "default_edition" (pkVal ed2) }
      let (work2, w3) := saveInstance w2 work1
      let ed3 := addAuthors ed2 (c.get_authors_from_data edition_data)
      let w4 := updateStoreRow w3 ed3
      let ed4 :=
        if (authorsOf ed3).isEmpty ∧ ¬(authorsOf work2).isEmpty then
          setAuthors ed3 (authorsOf work2)
        else ed3
      let w5 := updateStoreRow w4 ed4
      (.ok (some ed4), w5, evs)

/-- The tail of get_or_create_book shared by both classification branches:
fail when either payload is empty, otherwise convert and persist the Work
activity, attach the authors read from the fetched document, and create the
edition from the selected edition payload. -/
def bookFromParts (c : Connector) (workM editionM : ModelClass) (fetchedData : Obj)
    (work_data edition_data : Obj) (remote_id : String) (w : World) :
    Except PyErr (Option Instance) × World × List Ev :=
  if work_data = [] ∨ edition_data = [] then
    (.error (.connectorException ("Unable to load book data: " ++ remote_id)), w, [])
  else
    match workM.makeActivity work_data with
    | .error e => (.error e, w, [])
    | .ok workAct =>
      match ActivityObject.to_model workM workAct none true w with
      | (.error e, w1, evs) => (.error e, w1, evs)
      | (.ok none, w1, evs) => (.error .attributeError, w1, evs)
      | (.ok (some work0), w1, evs) =>
        let work1 := addAuthors work0 (c.get_authors_from_data fetchedData)
        let w2 := updateStoreRow w1 work1
        match create_edition_from_data c editionM work1 edition_data w2 with
        | (r, w3, evs2) => (r, w3, evs ++ evs2)

/-- AbstractConnector.get_or_create_book: return the existing edition or
work at this remote id (a work answering through its default edition);
otherwise fetch the document, map it, classify it work-shaped or
edition-shaped, derive the other payload through the connector's extractor
with fallback to the document (work-shaped) or the mapped document
(edition-shaped) when extraction raises KeyError, and hand both payloads to
the shared conversion tail.  The whole method runs in one transaction, so
an error rolls the store back (deferred tasks, already fired, remain). -/
def AbstractConnector.get_or_create_book (c : Connector) (workM editionM : ModelClass)
    (fetch : String → FetchOutcome) (remote_id : String) (w : World) :
    Except PyErr (Option Instance) × World × List Ev :=
  let existing :=
    match findExistingByRemoteId w.store editionM.name remote_id with
    | some e => some e
    | none => findExistingByRemoteId w.store workM.name remote_id
  match existing with
  | some e =>
    if e.cls = workM.name then (.ok (get_default_editon w.store e), w, [])
    else (.ok (some e), w, [])
  | none =>
    let run : Except PyErr (Option Instance) × World × List Ev :=
      match get_data fetch remote_id with
      | .error e => (.error e, w, [])
      | .ok data =>
        let mapped_data := dict_from_mappings data c.book_mappings
        let wded :=
          if c.is_work_data data then
            (mapped_data,
             match c.get_edition_from_work_data data with
             | .ok ed => ed
             | .error _ => data)
          else
            ((match c.get_work_from_edition_data data with
              | .ok wd => dict_from_mappings wd c.book_mappings
              | .error _ => mapped_data), data)
        match bookFromParts c workM editionM data wded.1 wded.2 remote_id w with
        | (r, w', evs) => (r, w', Ev.fetched remote_id :: evs)
    match run with
    | (.error e, w', evs) => (.error e, { w with tasks := w'.tasks }, evs)
    | ok => ok

/- ## Derived definitions used by the verification -/

/-- The instance transformation common to the three binding loops. -/
def applyBindingsF (bs : List Binding) (inst : Instance) (act : Activity) : Instance :=
  match bs with
  | [] => inst
  | b :: rest => applyBindingsF rest (b.set_field_from_activity inst act) act

/-- The last binding of the list writing the given model field. -/
def lastWrite (bs : List Binding) (k : String) : Option Binding :=
  match bs with
  | [] => none
  | b :: rest =>
    match lastWrite rest k with
    | some b' => some b'
    | none => if b.model_field = k then some b else none

/-- The activity as mutated by the serialize call made for the dedup
lookup. -/
def actWithContext (act : Activity) : Activity :=
  { act with attrs := insertKey act.attrs "@context" contextURI }

/-- The target instance and (possibly mutated) activity resolved by
to_model from the optional given instance and the dedup lookup. -/
def resolveTarget (m : ModelClass) (act : Activity) (instOpt : Option Instance) (w : World) :
    Instance × Activity :=
  match instOpt with
  | some i => (i, act)
  | none =>
    match m.find_existing w.store (insertKey act.attrs "@context" contextURI) with
    | some i => (i, actWithContext act)
    | none => ({ cls := m.name, pk := none, fields := [] }, actWithContext act)

/-- Number of rows of the given model class carrying the given canonical
URI. -/
def countURI (s : Store) (cls : String) (uri : String) : Nat :=
  (s.filter (fun i => i.cls = cls ∧ lookupKey i.fields "remote_id" = some (.vstr uri))).length

/- ## Concrete sample objects used by the witness evaluations -/

/-- A sample fetched ActivityPub document. -/
def sampleFetchData : Obj :=
  [ ("id", Val.vstr "https://ex.org/a/1")
  , ("type", Val.vstr "Note")
  , ("content", Val.vstr "hi")
  , ("tag", Val.vls ["https://ex.org/b/1", "https://ex.org/b/2", "https://ex.org/b/3"]) ]

/-- A sample activity variant schema: required id, defaulted type and
content, factory-defaulted tag. -/
def sampleSchema : List FieldSpec :=
  [ ⟨"id", none, none⟩
  , ⟨"type", some (Val.vstr "Note"), none⟩
  , ⟨"content", some (Val.vstr ""), none⟩
  , ⟨"tag", none, some (Val.vls [])⟩ ]

/-- A sample local entity class converting the sample variant. -/
def sampleModel : ModelClass :=
  { name := "Status"
  , activity_serializer := "Note"
  , schema := sampleSchema
  , ignore_activity := none
  , simple_fields := [⟨"remote_id", "id"⟩, ⟨"content", "content"⟩]
  , image_fields := []
  , many_to_many_fields := []
  , deserialize_reverse_fields := [⟨"attachments", "tag", "Attachment", "status"⟩] }

/-- A sample entity class whose simple bindings mirror the schema one to
one, for the round-trip evaluation. -/
def mirrorModel : ModelClass :=
  { name := "Status"
  , activity_serializer := "Note"
  , schema := sampleSchema
  , ignore_activity := none
  , simple_fields := sampleSchema.map (fun f => ⟨f.name, f.name⟩)
  , image_fields := []
  , many_to_many_fields := []
  , deserialize_reverse_fields := [] }

/-- A sample transport serving the sample document at its canonical URI. -/
def sampleFetch : String → FetchOutcome :=
  fun u => if u = "https://ex.org/a/1" then .ok sampleFetchData else .requestError

/-- A transport that always fails at the connection level. -/
def downFetch : String → FetchOutcome := fun _ => .requestError

/-- The empty world. -/
def emptyWorld : World := { store := [], nextPk := 0, tasks := [] }

/-- A sample connector with a query budget of two. -/
def budgetConnector : Connector :=
  { identifier := "remote-catalog"
  , max_query_count := some 2
  , query_count := 0
  , book_mappings := []
  , is_work_data := fun _ => false
  , get_edition_from_work_data := fun _ => .error ()
  , get_work_from_edition_data := fun _ => .error ()
  , get_authors_from_data := fun _ => [] }

/-- A sample raw edition-shaped catalog document. -/
def bookData : Obj :=
  [ ("id", Val.vstr "https://openlibrary.org/books/OL1M")
  , ("title", Val.vstr "Dune") ]

/-- A sample catalog connector whose work extraction raises. -/
def bookConnector : Connector :=
  { identifier := "openlibrary"
  , max_query_count := some 10
  , query_count := 0
  , book_mappings := [Mapping.make "id" none none, Mapping.make "title" none none]
  , is_work_data := fun d => decide (lookupKey d "kind" = some (.vstr "work"))
  , get_edition_from_work_data := fun _ => .error ()
  , get_work_from_edition_data := fun _ => .error ()
  , get_authors_from_data := fun _ => [] }

/-- The Work variant schema of the sample catalog models. -/
def workSchema : List FieldSpec :=
  [ ⟨"id", none, none⟩
  , ⟨"type", some (Val.vstr "Work"), none⟩
  , ⟨"title", some (Val.vstr ""), none⟩ ]

/-- The Edition variant schema of the sample catalog models. -/
def editionSchema : List FieldSpec :=
  [ ⟨"id", none, none⟩
  , ⟨"type", some (Val.vstr "Edition"), none⟩
  , ⟨"title", some (Val.vstr ""), none⟩
  , ⟨"work", some Val.vnone, none⟩ ]

/-- The sample Work entity class. -/
def workModel : ModelClass :=
  { name := "Work"
  , activity_serializer := "Work"
  , schema := workSchema
  , ignore_activity := none
  , simple_fields := [⟨"remote_id", "id"⟩, ⟨"title", "title"⟩]
  , image_fields := []
  , many_to_many_fields := []
  , deserialize_reverse_fields := [] }

/-- The sample Edition entity class. -/
def editionModel : ModelClass :=
  { name := "Edition"
  , activity_serializer := "Edition"
  , schema := editionSchema
  , ignore_activity := none
  , simple_fields := [⟨"remote_id", "id"⟩, ⟨"title", "title"⟩, ⟨"parent_work", "work"⟩]
  , image_fields := []
  , many_to_many_fields := []
  , deserialize_reverse_fields := [] }

/-- A sample transport serving the raw book document. -/
def bookFetch : String → FetchOutcome :=
  fun u => if u = "https://openlibrary.org/books/OL1M" then .ok bookData else .requestError

/-- A sample one-dict heap. -/
def sampleHeap : Nat → Obj := fun _ => [("id", Val.vstr "x")]

/-- A sample constructed Note activity. -/
def sampleAct : Activity := { cls := "Note", attrs := sampleFetchData }

/-- A transport returning a document that lacks the required id field. -/
def noIdFetch : String → FetchOutcome := fun _ => .ok [("type", Val.vstr "Note")]

/-- The attribute dict produced by constructing the sample schema from the
sample document. -/
def mirrorAttrs : Obj :=
  [ ("id", Val.vstr "https://ex.org/a/1")
  , ("type", Val.vstr "Note")
  , ("content", Val.vstr "hi")
  , ("tag", Val.vls ["https://ex.org/b/1", "https://ex.org/b/2", "https://ex.org/b/3"]) ]

/- ## Helper lemmas -/

theorem lookup_insert_self (d : Obj) (k : String) (v : Val) :
    lookupKey (insertKey d k v) k = some v := by
  induction d with
  | nil => simp [insertKey, lookupKey]
  | cons p rest ih =>
    by_cases h : p.1 = k
    · simp [insertKey, lookupKey, h]
    · simp [insertKey, lookupKey, h, ih]

theorem lookup_insert_other (d : Obj) (k' k : String) (v : Val) (h : k' ≠ k) :
    lookupKey (insertKey d k' v) k = lookupKey d k := by
  induction d with
  | nil => simp [insertKey, lookupKey, h]
  | cons p rest ih =>
    by_cases h1 : p.1 = k'
    · simp [insertKey, lookupKey, h1, h]
    · by_cases h2 : p.1 = k
      · simp [insertKey, lookupKey, h1, h2, Ne.symm h]
      · simp [insertKey, lookupKey, h1, h2, ih]

theorem init_eq_map (flds : List FieldSpec) (kwargs : Obj)
    (h : ∀ f ∈ flds, (lookupKey kwargs f.name).isSome ∨ f.default.isSome ∨ f.default_factory.isSome) :
    ActivityObject.init flds kwargs = .ok (flds.map (resolveField kwargs)) := by
  induction flds with
  | nil => simp [ActivityObject.init]
  | cons f rest ih =>
    have hf := h f (List.mem_cons_self f rest)
    have hrest : ∀ g ∈ rest, (lookupKey kwargs g.name).isSome ∨ g.default.isSome ∨ g.default_factory.isSome :=
      fun g hg => h g (List.mem_cons_of_mem f hg)
    cases hv : lookupKey kwargs f.name with
    | some v =>
      simp [ActivityObject.init, hv, ih hrest, resolveField]
    | none =>
      have hdef : ¬(f.default = none ∧ f.default_factory = none) := by
        rcases hf with h1 | h2 | h3
        · rw [hv] at h1; simp at h1
        · intro hc; rw [hc.1] at h2; simp at h2
        · intro hc; rw [hc.2] at h3; simp at h3
      simp [ActivityObject.init, hv, hdef, ih hrest, resolveField]

theorem init_missing_required (pre post : List FieldSpec) (f : FieldSpec) (kwargs : Obj)
    (hpre : ∀ g ∈ pre, (lookupKey kwargs g.name).isSome ∨ g.default.isSome ∨ g.default_factory.isSome)
    (hk : lookupKey kwargs f.name = none) (hd : f.default = none) (hdf : f.default_factory = none) :
    ActivityObject.init (pre ++ f :: post) kwargs =
      .error (.activitySerializerError ("Missing required field: " ++ f.name)) := by
  induction pre with
  | nil =>
    simp [ActivityObject.init, hk, hd, hdf]
  | cons g rest ih =>
    have hg := hpre g (List.mem_cons_self g rest)
    have hrest : ∀ g' ∈ rest, (lookupKey kwargs g'.name).isSome ∨ g'.default.isSome ∨ g'.default_factory.isSome :=
      fun g' hg' => hpre g' (List.mem_cons_of_mem g hg')
    cases hv : lookupKey kwargs g.name with
    | some v =>
      simp only [List.cons_append, ActivityObject.init, hv, List.append_eq]
      rw [ih hrest]
    | none =>
      have hdef : ¬(g.default = none ∧ g.default_factory = none) := by
        rcases hg with h1 | h2 | h3
        · rw [hv] at h1; simp at h1
        · intro hc; rw [hc.1] at h2; simp at h2
        · intro hc; rw [hc.2] at h3; simp at h3
      simp only [List.cons_append, ActivityObject.init, hv, if_neg hdef, List.append_eq]
      rw [ih hrest]

theorem lookup_map_resolveField (flds : List FieldSpec) (kwargs : Obj) (k : String) :
    lookupKey (flds.map (resolveField kwargs)) k =
      (flds.find? (fun f => f.name = k)).map (fun f => (resolveField kwargs f).2) := by
  induction flds with
  | nil => simp [lookupKey]
  | cons f rest ih =>
    by_cases h : f.name = k
    · simp [lookupKey, resolveField, List.find?, h]
    · simp [lookupKey, resolveField, List.find?, h, ih]

theorem lastWrite_mem (bs : List Binding) (k : String) (b : Binding)
    (h : lastWrite bs k = some b) : b ∈ bs ∧ b.model_field = k := by
  induction bs with
  | nil => simp [lastWrite] at h
  | cons b0 rest ih =>
    simp only [lastWrite] at h
    cases hr : lastWrite rest k with
    | some b' =>
      rw [hr] at h
      have h' : b' = b := by simpa using h
      subst h'
      obtain ⟨h1, h2⟩ := ih hr
      exact ⟨List.mem_cons_of_mem b0 h1, h2⟩
    | none =>
      rw [hr] at h
      by_cases hb : b0.model_field = k
      · have h' : b0 = b := by simpa [hb] using h
        subst h'
        exact ⟨List.mem_cons_self b0 rest, hb⟩
      · simp [hb] at h

theorem lastWrite_none_of_no_writer (bs : List Binding) (k : String)
    (h : ∀ b ∈ bs, b.model_field ≠ k) : lastWrite bs k = none := by
  induction bs with
  | nil => rfl
  | cons b rest ih =>
    have hrest := ih (fun b' hb' => h b' (List.mem_cons_of_mem b hb'))
    simp [lastWrite, hrest, h b (List.mem_cons_self b rest)]

theorem lastWrite_isSome_of_writer (bs : List Binding) (k : String) (b0 : Binding)
    (hmem : b0 ∈ bs) (hk : b0.model_field = k) : (lastWrite bs k).isSome := by
  induction bs with
  | nil => simp at hmem
  | cons b rest ih =>
    rcases List.mem_cons.mp hmem with heq | hmem'
    · subst heq
      simp only [lastWrite]
      cases hr : lastWrite rest k with
      | some b' => simp
      | none => simp [hk]
    · simp only [lastWrite]
      cases hr : lastWrite rest k with
      | some b' => simp
      | none =>
        have := ih hmem'
        rw [hr] at this
        simp at this

theorem lookup_applyBindingsF (bs : List Binding) (inst : Instance) (act : Activity) (k : String) :
    lookupKey (applyBindingsF bs inst act).fields k =
      (match lastWrite bs k with
       | some b => some (getattrD act b.activity_field)
       | none => lookupKey inst.fields k) := by
  induction bs generalizing inst with
  | nil => rfl
  | cons b rest ih =>
    simp only [applyBindingsF, lastWrite, ih]
    cases hr : lastWrite rest k with
    | some b' => rfl
    | none =>
      by_cases hb : b.model_field = k
      · simp only [hb, if_pos rfl]
        simp [Binding.set_field_from_activity, hb, lookup_insert_self]
      · simp only [if_neg hb]
        simp [Binding.set_field_from_activity, lookup_insert_other _ _ _ _ hb]

theorem applyBindingsF_cls (bs : List Binding) (inst : Instance) (act : Activity) :
    (applyBindingsF bs inst act).cls = inst.cls := by
  induction bs generalizing inst with
  | nil => rfl
  | cons b rest ih => simp [applyBindingsF, ih, Binding.set_field_from_activity]

theorem applyBindingsF_pk (bs : List Binding) (inst : Instance) (act : Activity) :
    (applyBindingsF bs inst act).pk = inst.pk := by
  induction bs generalizing inst with
  | nil => rfl
  | cons b rest ih => simp [applyBindingsF, ih, Binding.set_field_from_activity]

theorem applySimple_spec (bs : List Binding) (inst : Instance) (act : Activity) :
    applySimple bs inst act =
      (applyBindingsF bs inst act, bs.map (fun b => Ev.setSimple b.model_field)) := by
  induction bs generalizing inst with
  | nil => rfl
  | cons b rest ih => simp [applySimple, applyBindingsF, ih]

theorem applyImage_spec (bs : List Binding) (inst : Instance) (act : Activity) :
    applyImage bs inst act =
      (applyBindingsF bs inst act, bs.map (fun b => Ev.setImage b.model_field)) := by
  induction bs generalizing inst with
  | nil => rfl
  | cons b rest ih => simp [applyImage, applyBindingsF, ih]

theorem applyM2M_spec (bs : List Binding) (inst : Instance) (act : Activity) :
    applyM2M bs inst act =
      (applyBindingsF bs inst act, bs.map (fun b => Ev.setM2M b.model_field)) := by
  induction bs generalizing inst with
  | nil => rfl
  | cons b rest ih => simp [applyM2M, applyBindingsF, ih]

theorem to_model_unfold (m : ModelClass) (act : Activity) (instOpt : Option Instance)
    (save : Bool) (w : World)
    (hCls : act.cls = m.activity_serializer)
    (hIgn : (match m.ignore_activity with | some p => p act | none => false) = false) :
    ActivityObject.to_model m act instOpt save w =
      (let pair := resolveTarget m act instOpt w
       let inst2 := applyBindingsF m.image_fields (applyBindingsF m.simple_fields pair.1 pair.2) pair.2
       let evs := m.simple_fields.map (fun b => Ev.setSimple b.model_field)
         ++ m.image_fields.map (fun b => Ev.setImage b.model_field)
       if save then
         let inst3 := (saveInstance w inst2).1
         let w1 := (saveInstance w inst2).2
         let inst4 := applyBindingsF m.many_to_many_fields inst3 pair.2
         let w2 := updateStoreRow w1 inst4
         let ts := reverseTasks m inst4 pair.2
         (.ok (some inst4), { w2 with tasks := w2.tasks ++ ts },
           evs ++ [Ev.savedInstance]
             ++ m.many_to_many_fields.map (fun b => Ev.setM2M b.model_field)
             ++ ts.map Ev.enqueued)
       else (.ok (some inst2), w, evs)) := by
  have hne : ¬(act.cls ≠ m.activity_serializer) := by simp [hCls]
  simp only [ActivityObject.to_model, if_neg hne, hIgn, if_false, Bool.false_eq_true,
    ActivityObject.serialize, applySimple_spec, applyImage_spec, applyM2M_spec,
    resolveTarget, actWithContext]
  cases instOpt with
  | some i =>
    cases save with
    | true => simp [saveInstance]
    | false => simp
  | none =>
    cases hfe : m.find_existing w.store (insertKey act.attrs "@context" contextURI) with
    | some i =>
      cases save with
      | true => simp [hfe]
      | false => simp [hfe]
    | none =>
      cases save with
      | true => simp [hfe]
      | false => simp [hfe]

theorem map_fix {α : Type} (l : List α) (f : α → α) (h : ∀ a ∈ l, f a = a) : l.map f = l := by
  induction l with
  | nil => rfl
  | cons a rest ih =>
    simp only [List.map_cons, h a (List.mem_cons_self a rest),
      ih (fun a' ha' => h a' (List.mem_cons_of_mem a ha')), List.cons.injEq, and_self]

theorem init_ok_shape (flds : List FieldSpec) (kwargs : Obj) (res : Obj)
    (h : ActivityObject.init flds kwargs = .ok res) :
    res = flds.map (resolveField kwargs) := by
  induction flds generalizing res with
  | nil =>
    simp [ActivityObject.init] at h
    simp [← h]
  | cons f rest ih =>
    simp only [ActivityObject.init] at h
    cases hv : lookupKey kwargs f.name with
    | some v =>
      rw [hv] at h
      cases hr : ActivityObject.init rest kwargs with
      | error e => rw [hr] at h; simp at h
      | ok tail =>
        rw [hr] at h
        simp only [Except.ok.injEq] at h
        simp [← h, List.map_cons, resolveField, hv, ih tail hr]
    | none =>
      rw [hv] at h
      by_cases hdef : f.default = none ∧ f.default_factory = none
      · rw [if_pos hdef] at h; simp at h
      · rw [if_neg hdef] at h
        cases hr : ActivityObject.init rest kwargs with
        | error e => rw [hr] at h; simp at h
        | ok tail =>
          rw [hr] at h
          simp only [Except.ok.injEq] at h
          simp [← h, List.map_cons, resolveField, hv, ih tail hr]

theorem find?_name_of_nodup (flds : List FieldSpec) (f : FieldSpec)
    (hnd : (flds.map FieldSpec.name).Nodup) (hmem : f ∈ flds) :
    flds.find? (fun g => g.name = f.name) = some f := by
  induction flds with
  | nil => simp at hmem
  | cons g rest ih =>
    rcases List.mem_cons.mp hmem with heq | hmem'
    · subst heq
      simp [List.find?]
    · have hne : g.name ≠ f.name := by
        intro hc
        have : f.name ∈ rest.map FieldSpec.name := List.mem_map_of_mem FieldSpec.name hmem'
        rw [← hc] at this
        exact (List.nodup_cons.mp (by simpa using hnd)).1 this
      have hnd' : (rest.map FieldSpec.name).Nodup := (List.nodup_cons.mp (by simpa using hnd)).2
      simp [List.find?, hne, ih hnd' hmem']

theorem insert_append_fresh (d : Obj) (k : String) (v : Val) (h : ∀ p ∈ d, p.1 ≠ k) :
    insertKey d k v = d ++ [(k, v)] := by
  induction d with
  | nil => rfl
  | cons p rest ih =>
    have hp := h p (List.mem_cons_self p rest)
    simp only [insertKey, if_neg hp, List.cons_append, List.cons.injEq, true_and]
    exact ih (fun p' hp' => h p' (List.mem_cons_of_mem p hp'))

theorem dict_from_mappings_fold (data : Obj) (mappings : List Mapping) (acc : Obj)
    (hdisj : ∀ mp ∈ mappings, ∀ p ∈ acc, p.1 ≠ mp.local_field)
    (hnd : (mappings.map Mapping.local_field).Nodup) :
    mappings.foldl (fun result mp => insertKey result mp.local_field (mp.get_value data)) acc =
      acc ++ mappings.map (fun mp => (mp.local_field, mp.get_value data)) := by
  induction mappings generalizing acc with
  | nil => simp
  | cons mp rest ih =>
    simp only [List.foldl_cons]
    rw [insert_append_fresh acc mp.local_field (mp.get_value data)
      (fun p hp => hdisj mp (List.mem_cons_self mp rest) p hp)]
    have hnotin : mp.local_field ∉ rest.map Mapping.local_field :=
      (List.nodup_cons.mp (by simpa using hnd)).1
    have hnd' : (rest.map Mapping.local_field).Nodup :=
      (List.nodup_cons.mp (by simpa using hnd)).2
    have hdisj' : ∀ mp' ∈ rest, ∀ p ∈ acc ++ [(mp.local_field, mp.get_value data)], p.1 ≠ mp'.local_field := by
      intro mp' hmp' p hp
      rcases List.mem_append.mp hp with hp1 | hp2
      · exact hdisj mp' (List.mem_cons_of_mem mp hmp') p hp1
      · have hp2' : p = (mp.local_field, mp.get_value data) := by simpa using hp2
        subst hp2'
        intro hc
        have hc' : mp.local_field = mp'.local_field := hc
        apply hnotin
        rw [hc']
        exact List.mem_map_of_mem Mapping.local_field hmp'
    rw [ih _ hdisj' hnd']
    simp

theorem dict_from_mappings_eq_map (data : Obj) (mappings : List Mapping)
    (hnd : (mappings.map Mapping.local_field).Nodup) :
    dict_from_mappings data mappings =
      mappings.map (fun mp => (mp.local_field, mp.get_value data)) := by
  have := dict_from_mappings_fold data mappings [] (by intro mp _ p hp; simp at hp) hnd
  simpa [dict_from_mappings] using this

theorem runSearches_query_count (c : Connector) (outs : List Bool) :
    (runSearches c outs).query_count = c.query_count + outs.length := by
  induction outs generalizing c with
  | nil => simp [runSearches]
  | cons o rest ih =>
    simp only [runSearches, List.foldl_cons] at *
    rw [ih]
    simp [searchStep]
    omega

theorem runSearches_max (c : Connector) (outs : List Bool) :
    (runSearches c outs).max_query_count = c.max_query_count := by
  induction outs generalizing c with
  | nil => rfl
  | cons o rest ih =>
    simp only [runSearches, List.foldl_cons] at *
    rw [ih]
    simp [searchStep]

theorem saveInstance_tasks (w : World) (inst : Instance) :
    ((saveInstance w inst).2).tasks = w.tasks := by
  cases h : inst.pk <;> simp [saveInstance, h]

theorem updateStoreRow_tasks (w : World) (inst : Instance) :
    (updateStoreRow w inst).tasks = w.tasks := rfl

theorem lookup_applyBindingsF_none (bs : List Binding) (inst : Instance) (act : Activity)
    (k : String) (h : lastWrite bs k = none) :
    lookupKey (applyBindingsF bs inst act).fields k = lookupKey inst.fields k := by
  rw [lookup_applyBindingsF, h]

theorem lookup_applyBindingsF_some (bs : List Binding) (inst : Instance) (act : Activity)
    (k : String) (b : Binding) (h : lastWrite bs k = some b) :
    lookupKey (applyBindingsF bs inst act).fields k = some (getattrD act b.activity_field) := by
  rw [lookup_applyBindingsF, h]

theorem to_model_fresh_create (m : ModelClass) (act : Activity) (w : World) (s : String)
    (hCls : act.cls = m.activity_serializer)
    (hIgn : m.ignore_activity = none)
    (hAid : lookupKey act.attrs "id" = some (.vstr s))
    (hNo : findExistingByRemoteId w.store m.name s = none)
    (hsb : (⟨"remote_id", "id"⟩ : Binding) ∈ m.simple_fields)
    (hsb2 : ∀ b ∈ m.simple_fields, b.model_field = "remote_id" → b.activity_field = "id")
    (hib : ∀ b ∈ m.image_fields, b.model_field ≠ "remote_id")
    (hmb : ∀ b ∈ m.many_to_many_fields, b.model_field ≠ "remote_id")
    (hwf : ∀ i ∈ w.store, ∀ n, i.pk = some n → n < w.nextPk) :
    ∃ inst evs,
      ActivityObject.to_model m act none true w =
        (.ok (some inst),
         { store := w.store ++ [inst], nextPk := w.nextPk + 1,
           tasks := w.tasks ++ reverseTasks m inst (actWithContext act) }, evs)
      ∧ inst.cls = m.name ∧ inst.pk = some w.nextPk
      ∧ lookupKey inst.fields "remote_id" = some (.vstr s) := by
  have hIgn' : (match m.ignore_activity with | some p => p act | none => false) = false := by
    rw [hIgn]
  have hfe : m.find_existing w.store (insertKey act.attrs "@context" contextURI) = none := by
    unfold ModelClass.find_existing
    rw [lookup_insert_other _ _ _ _ (by decide : "@context" ≠ "id"), hAid]
    exact hNo
  rw [to_model_unfold m act none true w hCls hIgn']
  simp only [resolveTarget, hfe]
  set actS := actWithContext act with hactS
  set fresh : Instance := { cls := m.name, pk := none, fields := [] } with hfresh
  set inst2 := applyBindingsF m.image_fields (applyBindingsF m.simple_fields fresh actS) actS
    with hinst2
  have hrid2 : lookupKey inst2.fields "remote_id" = some (.vstr s) := by
    rw [hinst2, lookup_applyBindingsF_none _ _ _ _ (lastWrite_none_of_no_writer _ _ hib)]
    obtain ⟨b, hb⟩ := Option.isSome_iff_exists.mp
      (lastWrite_isSome_of_writer m.simple_fields "remote_id" ⟨"remote_id", "id"⟩ hsb rfl)
    rw [lookup_applyBindingsF_some _ _ _ _ b hb]
    obtain ⟨hmem, hmf⟩ := lastWrite_mem _ _ _ hb
    rw [hsb2 b hmem hmf]
    simp only [getattrD, hactS, actWithContext]
    rw [lookup_insert_other _ _ _ _ (by decide : "@context" ≠ "id"), hAid]
    rfl
  have hcls2 : inst2.cls = m.name := by
    rw [hinst2, applyBindingsF_cls, applyBindingsF_cls]
  have hpk2 : inst2.pk = none := by
    rw [hinst2, applyBindingsF_pk, applyBindingsF_pk]
  set inst3 : Instance := { inst2 with pk := some w.nextPk } with hinst3
  set inst4 := applyBindingsF m.many_to_many_fields inst3 actS with hinst4
  have hrid4 : lookupKey inst4.fields "remote_id" = some (.vstr s) := by
    rw [hinst4, lookup_applyBindingsF_none _ _ _ _ (lastWrite_none_of_no_writer _ _ hmb)]
    exact hrid2
  have hcls4 : inst4.cls = m.name := by
    rw [hinst4, applyBindingsF_cls, hinst3]
    exact hcls2
  have hpk4 : inst4.pk = some w.nextPk := by
    rw [hinst4, applyBindingsF_pk]
  have hsave : saveInstance w inst2 =
      (inst3, { w with store := w.store ++ [inst3], nextPk := w.nextPk + 1 }) := by
    simp only [saveInstance, hpk2]
  have hmap1 : w.store.map (fun j => if j.pk = inst4.pk ∧ j.cls = inst4.cls then inst4 else j)
      = w.store := by
    apply map_fix
    intro j hj
    rw [if_neg]
    intro hc
    have := hwf j hj w.nextPk (by rw [hc.1, hpk4])
    omega
  have hmap2 : (if inst3.pk = inst4.pk ∧ inst3.cls = inst4.cls then inst4 else inst3) = inst4 := by
    rw [if_pos]
    constructor
    · rw [hpk4, hinst3]
    · rw [hcls4, hinst3]
      exact hcls2
  have hupd : updateStoreRow { w with store := w.store ++ [inst3], nextPk := w.nextPk + 1 } inst4
      = { store := w.store ++ [inst4], nextPk := w.nextPk + 1, tasks := w.tasks } := by
    simp only [updateStoreRow, List.map_append, hmap1, List.map_cons, List.map_nil, hmap2]
  refine ⟨inst4,
    List.map (fun b => Ev.setSimple b.model_field) m.simple_fields ++
      List.map (fun b => Ev.setImage b.model_field) m.image_fields ++ [Ev.savedInstance] ++
      List.map (fun b => Ev.setM2M b.model_field) m.many_to_many_fields ++
      List.map Ev.enqueued (reverseTasks m inst4 actS), ?_, hcls4, hpk4, hrid4⟩
  rw [if_pos trivial]
  simp only [hsave]
  rw [← hinst4, hupd]

/- ## Claim theorems -/

/-- C5 counterexample: mapping local year from remote pubYear over a record
lacking pubYear yields a dict binding year to None, not the empty dict the
claim asserts. -/
theorem C5_counterexample_absent_key :
    dict_from_mappings
      [("id", Val.vstr "https://ex.org/book/9"), ("title", Val.vstr "Dune")]
      [Mapping.make "year" (some "pubYear") none] = [("year", Val.vnone)]
    ∧ [("year", Val.vnone)] ≠ ([] : Obj) := by
  exact ⟨rfl, by decide⟩

/-- C5 (amended): dict_from_mappings applies every mapping and collects all
results keyed by local field name, absent results included with value None
(it does not drop them); the title example yields the expected singleton,
and the pubYear example yields a dict binding year to None. -/
theorem C5_mapFromRecord_amended :
    (∀ (data : Obj) (mappings : List Mapping),
      (mappings.map Mapping.local_field).Nodup →
      dict_from_mappings data mappings =
        mappings.map (fun mp => (mp.local_field, mp.get_value data)))
    ∧ dict_from_mappings
        [("id", Val.vstr "https://ex.org/book/9"), ("title", Val.vstr "Dune")]
        [Mapping.make "title" none none] = [("title", Val.vstr "Dune")]
    ∧ dict_from_mappings
        [("id", Val.vstr "https://ex.org/book/9"), ("title", Val.vstr "Dune")]
        [Mapping.make "year" (some "pubYear") none] = [("year", Val.vnone)] :=
  ⟨fun data mappings hnd => dict_from_mappings_eq_map data mappings hnd, rfl, rfl⟩

/-- C5 witness: the general clause of the amended statement evaluated at
the pubYear example. -/
theorem C5_mapFromRecord_amended_witness :
    (([Mapping.make "year" (some "pubYear") none]).map Mapping.local_field).Nodup
    ∧ dict_from_mappings [("id", Val.vstr "https://ex.org/book/9")]
        [Mapping.make "year" (some "pubYear") none] =
      [Mapping.make "year" (some "pubYear") none].map
        (fun mp => (mp.local_field, mp.get_value [("id", Val.vstr "https://ex.org/book/9")])) :=
  ⟨by decide, C5_mapFromRecord_amended.1 _ _ (by decide)⟩

/-- C9: applying a Mapping yields None when the source field is missing or
falsy; otherwise the transform is applied, a raising transform yields None
(never propagated), and a succeeding transform's value is returned. -/
theorem C9_mapping_error_swallowing (m : Mapping) (data : Obj) :
    (lookupKey data m.remote_field = none → m.get_value data = Val.vnone)
    ∧ (∀ v, lookupKey data m.remote_field = some v → isFalsy v = true →
        m.get_value data = Val.vnone)
    ∧ (∀ v, lookupKey data m.remote_field = some v → isFalsy v = false →
        m.formatter v = .error () → m.get_value data = Val.vnone)
    ∧ (∀ v r, lookupKey data m.remote_field = some v → isFalsy v = false →
        m.formatter v = .ok r → m.get_value data = r) := by
  refine ⟨?_, ?_, ?_, ?_⟩
  · intro h
    simp [Mapping.get_value, h, isFalsy]
  · intro v h hf
    simp [Mapping.get_value, h, hf]
  · intro v h hf he
    simp [Mapping.get_value, h, hf, he]
  · intro v r h hf ho
    simp [Mapping.get_value, h, hf, ho]

/-- C9 witness: a raising transform over a present truthy field evaluates
to None. -/
theorem C9_mapping_error_swallowing_witness :
    lookupKey [("x", Val.vstr "boom")]
        (Mapping.make "x" none (some (fun _ => Except.error ()))).remote_field =
      some (Val.vstr "boom")
    ∧ isFalsy (Val.vstr "boom") = false
    ∧ (Mapping.make "x" none (some (fun _ => Except.error ()))).formatter (Val.vstr "boom") =
        .error ()
    ∧ (Mapping.make "x" none (some (fun _ => Except.error ()))).get_value
        [("x", Val.vstr "boom")] = Val.vnone :=
  ⟨rfl, rfl, rfl,
    (C9_mapping_error_swallowing (Mapping.make "x" none (some (fun _ => Except.error ())))
      [("x", Val.vstr "boom")]).2.2.1 (Val.vstr "boom") rfl rfl rfl⟩

/-- C10: serialize returns the object's own attribute dict reference (not a
copy), permanently adds the context marker to that dict, changes no other
attribute of it, and leaves every other heap object untouched. -/
theorem C10_serialize_mutation (dictRef : Nat) (h : Nat → Obj) :
    (serializeHeap dictRef h).2 = dictRef
    ∧ (serializeHeap dictRef h).1 dictRef = insertKey (h dictRef) "@context" contextURI
    ∧ lookupKey ((serializeHeap dictRef h).1 dictRef) "@context" = some contextURI
    ∧ (∀ k, k ≠ "@context" →
        lookupKey ((serializeHeap dictRef h).1 dictRef) k = lookupKey (h dictRef) k)
    ∧ (∀ r, r ≠ dictRef → (serializeHeap dictRef h).1 r = h r) := by
  refine ⟨rfl, by simp [serializeHeap], ?_, ?_, ?_⟩
  · simp [serializeHeap, lookup_insert_self]
  · intro k hk
    simp only [serializeHeap, if_pos trivial]
    exact lookup_insert_other _ _ _ _ (Ne.symm hk)
  · intro r hr
    simp [serializeHeap, hr]

/-- C10 witness: the aliasing and frame facts evaluated on a one-dict
heap. -/
theorem C10_serialize_mutation_witness :
    (serializeHeap 0 sampleHeap).2 = 0
    ∧ lookupKey ((serializeHeap 0 sampleHeap).1 0) "@context" = some contextURI
    ∧ ("id" : String) ≠ "@context"
    ∧ lookupKey ((serializeHeap 0 sampleHeap).1 0) "id" = lookupKey (sampleHeap 0) "id"
    ∧ (1 : Nat) ≠ 0
    ∧ (serializeHeap 0 sampleHeap).1 1 = sampleHeap 1 :=
  ⟨(C10_serialize_mutation 0 sampleHeap).1,
   (C10_serialize_mutation 0 sampleHeap).2.2.1,
   by decide,
   (C10_serialize_mutation 0 sampleHeap).2.2.2.1 "id" (by decide),
   by decide,
   (C10_serialize_mutation 0 sampleHeap).2.2.2.2 1 (by decide)⟩

/-- C7: with a configured ceiling of two and a fresh counter, the budget
gate answers true exactly while fewer than two searches have run, whatever
their outcomes; in particular it is true before the first and second search
and false ever after. -/
theorem C7_budget_gate (c : Connector) (outs : List Bool)
    (hmax : c.max_query_count = some 2) (hcount : c.query_count = 0) :
    AbstractConnector.is_available (runSearches c outs) = decide (outs.length < 2) := by
  simp only [AbstractConnector.is_available, runSearches_max, runSearches_query_count,
    hmax, hcount, Nat.zero_add]
  by_cases h : 2 ≤ outs.length
  · rw [if_pos h]
    symm
    simp
    omega
  · rw [if_neg h]
    symm
    simp
    omega

/-- C7 witness: the gate evaluated on a two-budget connector after three
searches with mixed outcomes. -/
theorem C7_budget_gate_witness :
    budgetConnector.max_query_count = some 2
    ∧ budgetConnector.query_count = 0
    ∧ AbstractConnector.is_available (runSearches budgetConnector [true, false, true]) =
        decide (([true, false, true] : List Bool).length < 2) :=
  ⟨rfl, rfl, C7_budget_gate budgetConnector [true, false, true] rfl rfl⟩

/-- C8: when the resolver must fetch (dedup miss or refresh) and the fetch
fails at the connection level or with a non-JSON body, resolve fails with
an ActivitySerializerError naming the model and the remote id, returns no
instance and leaves the world unchanged. -/
theorem C8_fetch_failure (m : ModelClass) (fetch : String → FetchOutcome) (uri : String)
    (refresh save : Bool) (w : World)
    (hmiss : findExistingByRemoteId w.store m.name uri = none ∨ refresh = true)
    (hfail : fetch uri = .requestError ∨ fetch uri = .connectionError ∨ fetch uri = .notJson) :
    resolve_remote_id m fetch uri refresh save w =
      (.error (.activitySerializerError
        ("Could not connect to host for remote_id in " ++ m.name ++ " model: " ++ uri)),
       w, []) := by
  have hcond : ¬((findExistingByRemoteId w.store m.name uri).isSome ∧ ¬refresh = true) := by
    rcases hmiss with h | h
    · rw [h]
      simp
    · rw [h]
      simp
  simp only [resolve_remote_id, if_neg hcond]
  rcases hfail with h | h | h <;> simp [get_data, h]

/-- C8 witness: a connection-level failure on an empty store evaluates to
the annotated error. -/
theorem C8_fetch_failure_witness :
    (findExistingByRemoteId emptyWorld.store sampleModel.name "https://ex.org/a/1" = none
      ∨ (false : Bool) = true)
    ∧ (downFetch "https://ex.org/a/1" = .requestError
      ∨ downFetch "https://ex.org/a/1" = .connectionError
      ∨ downFetch "https://ex.org/a/1" = .notJson)
    ∧ resolve_remote_id sampleModel downFetch "https://ex.org/a/1" false true emptyWorld =
        (.error (.activitySerializerError
          ("Could not connect to host for remote_id in " ++ sampleModel.name ++ " model: "
            ++ "https://ex.org/a/1")), emptyWorld, []) :=
  ⟨Or.inl rfl, Or.inl rfl,
    C8_fetch_failure sampleModel downFetch "https://ex.org/a/1" false true emptyWorld
      (Or.inl rfl) (Or.inl rfl)⟩

/-- C1 counterexample: a field declaring only a factory default (a factory
producing the empty list) is not set to that default when absent from the
input: construction succeeds but stores the MISSING sentinel instead. -/
theorem C1_counterexample_factory_default :
    ActivityObject.init [⟨"tag", none, some (Val.vls [])⟩] [] = .ok [("tag", Val.vmissing)]
    ∧ Val.vmissing ≠ Val.vls [] :=
  ⟨rfl, by decide⟩

/-- C1 (amended): construction takes each declared field from the input if
present, else its literal default if declared; a field with only a factory
default is set to the MISSING sentinel (the factory is not invoked) and
construction succeeds; a field with neither fails with
MissingRequiredField naming the (first such) field; result keys are exactly
the declared field names, so unknown input keys are dropped; and a failing
construction inside the resolver returns the error with the world
unchanged, creating no local entity. -/
theorem C1_construction_amended :
    (∀ (flds : List FieldSpec) (kwargs : Obj),
      (∀ f ∈ flds, (lookupKey kwargs f.name).isSome ∨ f.default.isSome ∨ f.default_factory.isSome) →
      ActivityObject.init flds kwargs = .ok (flds.map (resolveField kwargs)))
    ∧ (∀ (pre post : List FieldSpec) (f : FieldSpec) (kwargs : Obj),
      (∀ g ∈ pre, (lookupKey kwargs g.name).isSome ∨ g.default.isSome ∨ g.default_factory.isSome) →
      lookupKey kwargs f.name = none → f.default = none → f.default_factory = none →
      ActivityObject.init (pre ++ f :: post) kwargs =
        .error (.activitySerializerError ("Missing required field: " ++ f.name)))
    ∧ (∀ (flds : List FieldSpec) (kwargs res : Obj),
      ActivityObject.init flds kwargs = .ok res → res.map Prod.fst = flds.map FieldSpec.name)
    ∧ (∀ (m : ModelClass) (fetch : String → FetchOutcome) (uri : String) (w : World)
        (data : Obj) (e : PyErr),
      findExistingByRemoteId w.store m.name uri = none →
      fetch uri = .ok data →
      m.find_existing w.store data = none →
      ActivityObject.init m.schema data = .error e →
      resolve_remote_id m fetch uri false true w = (.error e, w, [Ev.fetched uri])) := by
  refine ⟨init_eq_map, init_missing_required, ?_, ?_⟩
  · intro flds kwargs res h
    rw [init_ok_shape flds kwargs res h, List.map_map]
    apply List.map_congr_left
    intro f _
    rfl
  · intro m fetch uri w data e hmiss hfetch hfind hinit
    have hcond : ¬((findExistingByRemoteId w.store m.name uri).isSome ∧ ¬false = true) := by
      rw [hmiss]
      simp
    simp only [resolve_remote_id, if_neg hcond, get_data, hfetch, hmiss, hfind,
      ModelClass.makeActivity, hinit]
    simp

/-- C1 witness: the failure clause at the required id field, and the
resolver clause on a document lacking id over the empty store. -/
theorem C1_construction_amended_witness :
    lookupKey ([] : Obj) "id" = none
    ∧ ActivityObject.init
        (([] : List FieldSpec) ++ (⟨"id", none, none⟩ : FieldSpec)
          :: [⟨"type", some (Val.vstr "Note"), none⟩]) [] =
        .error (.activitySerializerError ("Missing required field: " ++ "id"))
    ∧ resolve_remote_id sampleModel noIdFetch "https://ex.org/a/9" false true emptyWorld =
        (.error (.activitySerializerError ("Missing required field: " ++ "id")),
         emptyWorld, [Ev.fetched "https://ex.org/a/9"]) :=
  ⟨rfl,
   C1_construction_amended.2.1 [] [⟨"type", some (Val.vstr "Note"), none⟩]
     ⟨"id", none, none⟩ []
     (by intro g hg; exact absurd hg (List.not_mem_nil g)) rfl rfl rfl,
   C1_construction_amended.2.2.2 sampleModel noIdFetch "https://ex.org/a/9" emptyWorld
     [("type", Val.vstr "Note")]
     (.activitySerializerError ("Missing required field: " ++ "id")) rfl rfl rfl rfl⟩

/-- C3: within one conversion with persist, the observable events are
exactly all simple bindings, then all image bindings, then the save, then
all many-to-many bindings, then one enqueued reverse-resolution task per
item of each present reverse field, and the task queue grows by exactly
those tasks; without persist the in-memory instance is returned after the
image bindings with the world (store and task queue) unchanged. -/
theorem C3_binding_order (m : ModelClass) (act : Activity) (instOpt : Option Instance) (w : World)
    (hCls : act.cls = m.activity_serializer)
    (hIgn : (match m.ignore_activity with | some p => p act | none => false) = false) :
    (∃ inst w',
      ActivityObject.to_model m act instOpt true w =
        (.ok (some inst), w',
          m.simple_fields.map (fun b => Ev.setSimple b.model_field)
          ++ m.image_fields.map (fun b => Ev.setImage b.model_field)
          ++ [Ev.savedInstance]
          ++ m.many_to_many_fields.map (fun b => Ev.setM2M b.model_field)
          ++ (reverseTasks m inst (resolveTarget m act instOpt w).2).map Ev.enqueued)
      ∧ w'.tasks = w.tasks ++ reverseTasks m inst (resolveTarget m act instOpt w).2)
    ∧ (∃ inst,
      ActivityObject.to_model m act instOpt false w =
        (.ok (some inst), w,
          m.simple_fields.map (fun b => Ev.setSimple b.model_field)
          ++ m.image_fields.map (fun b => Ev.setImage b.model_field))) := by
  constructor
  · rw [to_model_unfold m act instOpt true w hCls hIgn]
    rw [if_pos (rfl : true = true)]
    refine ⟨_, _, rfl, ?_⟩
    rw [updateStoreRow_tasks, saveInstance_tasks]
  · rw [to_model_unfold m act instOpt false w hCls hIgn]
    exact ⟨_, rfl⟩

/-- C3 witness: the binding order evaluated for the sample model and
activity over the empty world. -/
theorem C3_binding_order_witness :
    sampleAct.cls = sampleModel.activity_serializer
    ∧ ((∃ inst w',
      ActivityObject.to_model sampleModel sampleAct none true emptyWorld =
        (.ok (some inst), w',
          sampleModel.simple_fields.map (fun b => Ev.setSimple b.model_field)
          ++ sampleModel.image_fields.map (fun b => Ev.setImage b.model_field)
          ++ [Ev.savedInstance]
          ++ sampleModel.many_to_many_fields.map (fun b => Ev.setM2M b.model_field)
          ++ (reverseTasks sampleModel inst
              (resolveTarget sampleModel sampleAct none emptyWorld).2).map Ev.enqueued)
      ∧ w'.tasks = emptyWorld.tasks ++
          reverseTasks sampleModel inst (resolveTarget sampleModel sampleAct none emptyWorld).2)
    ∧ (∃ inst,
      ActivityObject.to_model sampleModel sampleAct none false emptyWorld =
        (.ok (some inst), emptyWorld,
          sampleModel.simple_fields.map (fun b => Ev.setSimple b.model_field)
          ++ sampleModel.image_fields.map (fun b => Ev.setImage b.model_field)))) :=
  ⟨rfl, C3_binding_order sampleModel sampleAct none emptyWorld rfl rfl⟩

/-- C6: for an instance constructed with all its required fields resolved,
serialize returns the declared fields plus the context marker; constructing
again from the serialized dict succeeds and restores every declared field;
and converting that reconstruction with persist off yields an in-memory
instance agreeing on every declared field with the pre-serialization
values, assuming the entity binds each declared field one to one and its
image bindings stay off the declared names. -/
theorem C6_round_trip (m : ModelClass) (kwargs attrs : Obj) (w : World)
    (hinit : ActivityObject.init m.schema kwargs = .ok attrs)
    (hnodup : (m.schema.map FieldSpec.name).Nodup)
    (hctx : ∀ f ∈ m.schema, f.name ≠ "@context")
    (hsimple : m.simple_fields = m.schema.map (fun f => ⟨f.name, f.name⟩))
    (himage : ∀ b ∈ m.image_fields, ∀ f ∈ m.schema, b.model_field ≠ f.name)
    (hIgn : m.ignore_activity = none) :
    (∀ f ∈ m.schema,
      lookupKey (ActivityObject.serialize attrs).2 f.name = lookupKey attrs f.name)
    ∧ lookupKey (ActivityObject.serialize attrs).2 "@context" = some contextURI
    ∧ (∃ attrs2, ActivityObject.init m.schema (ActivityObject.serialize attrs).2 = .ok attrs2
        ∧ ∀ f ∈ m.schema, lookupKey attrs2 f.name = lookupKey attrs f.name)
    ∧ (∀ attrs2, ActivityObject.init m.schema (ActivityObject.serialize attrs).2 = .ok attrs2 →
        ∃ inst evs,
          ActivityObject.to_model m { cls := m.activity_serializer, attrs := attrs2 } none false w =
            (.ok (some inst), w, evs)
          ∧ ∀ f ∈ m.schema, lookupKey inst.fields f.name = lookupKey attrs f.name) := by
  have hattrs : attrs = m.schema.map (resolveField kwargs) := init_ok_shape _ _ _ hinit
  have hlook : ∀ f ∈ m.schema, lookupKey attrs f.name = some (resolveField kwargs f).2 := by
    intro f hf
    rw [hattrs, lookup_map_resolveField, find?_name_of_nodup m.schema f hnodup hf]
    rfl
  have hser : (ActivityObject.serialize attrs).2 = insertKey attrs "@context" contextURI := rfl
  have hserLook : ∀ f ∈ m.schema,
      lookupKey (insertKey attrs "@context" contextURI) f.name = some (resolveField kwargs f).2 := by
    intro f hf
    rw [lookup_insert_other _ _ _ _ (Ne.symm (hctx f hf))]
    exact hlook f hf
  refine ⟨?_, ?_, ?_, ?_⟩
  · intro f hf
    rw [hser]
    exact lookup_insert_other _ _ _ _ (Ne.symm (hctx f hf))
  · rw [hser]
    exact lookup_insert_self _ _ _
  · have hok : ∀ f ∈ m.schema,
        (lookupKey (insertKey attrs "@context" contextURI) f.name).isSome
          ∨ f.default.isSome ∨ f.default_factory.isSome := by
      intro f hf
      left
      rw [hserLook f hf]
      rfl
    rw [hser]
    refine ⟨_, init_eq_map _ _ hok, ?_⟩
    intro f hf
    rw [lookup_map_resolveField, find?_name_of_nodup m.schema f hnodup hf, hlook f hf]
    simp [resolveField, hserLook f hf]
  · intro attrs2 h2
    rw [hser] at h2
    have hshape2 : attrs2 = m.schema.map (resolveField (insertKey attrs "@context" contextURI)) :=
      init_ok_shape _ _ _ h2
    rw [to_model_unfold m { cls := m.activity_serializer, attrs := attrs2 } none false w rfl
      (by rw [hIgn])]
    refine ⟨_, _, rfl, ?_⟩
    intro f hf
    have hnoimg : ∀ b ∈ m.image_fields, b.model_field ≠ f.name := fun b hb => himage b hb f hf
    rw [lookup_applyBindingsF_none _ _ _ _ (lastWrite_none_of_no_writer _ _ hnoimg)]
    have hwr : ((⟨f.name, f.name⟩ : Binding) ∈ m.simple_fields) := by
      rw [hsimple]
      exact List.mem_map_of_mem _ hf
    obtain ⟨b, hb⟩ := Option.isSome_iff_exists.mp
      (lastWrite_isSome_of_writer m.simple_fields f.name ⟨f.name, f.name⟩ hwr rfl)
    rw [lookup_applyBindingsF_some _ _ _ _ b hb]
    obtain ⟨hmem, hmf⟩ := lastWrite_mem _ _ _ hb
    have hbav : b.activity_field = f.name := by
      rw [hsimple] at hmem
      obtain ⟨g, hg, hbg⟩ := List.mem_map.mp hmem
      rw [← hbg] at hmf ⊢
      exact hmf
    rw [hbav]
    have hpair2 : (resolveTarget m { cls := m.activity_serializer, attrs := attrs2 } none w).2 =
        actWithContext { cls := m.activity_serializer, attrs := attrs2 } := by
      simp only [resolveTarget]
      cases m.find_existing w.store (insertKey attrs2 "@context" contextURI) <;> rfl
    rw [hpair2]
    simp only [getattrD, actWithContext]
    rw [lookup_insert_other _ _ _ _ (Ne.symm (hctx f hf))]
    rw [hshape2, lookup_map_resolveField, find?_name_of_nodup m.schema f hnodup hf]
    rw [hlook f hf]
    simp [resolveField, hserLook f hf]

/-- C6 witness: the round trip evaluated on the mirror model, the sample
document and the empty world. -/
theorem C6_round_trip_witness :
    ActivityObject.init mirrorModel.schema sampleFetchData = .ok mirrorAttrs
    ∧ ((∀ f ∈ mirrorModel.schema,
      lookupKey (ActivityObject.serialize mirrorAttrs).2 f.name = lookupKey mirrorAttrs f.name)
    ∧ lookupKey (ActivityObject.serialize mirrorAttrs).2 "@context" = some contextURI
    ∧ (∃ attrs2,
        ActivityObject.init mirrorModel.schema (ActivityObject.serialize mirrorAttrs).2 = .ok attrs2
        ∧ ∀ f ∈ mirrorModel.schema, lookupKey attrs2 f.name = lookupKey mirrorAttrs f.name)
    ∧ (∀ attrs2,
        ActivityObject.init mirrorModel.schema (ActivityObject.serialize mirrorAttrs).2 = .ok attrs2 →
        ∃ inst evs,
          ActivityObject.to_model mirrorModel
              { cls := mirrorModel.activity_serializer, attrs := attrs2 } none false emptyWorld =
            (.ok (some inst), emptyWorld, evs)
          ∧ ∀ f ∈ mirrorModel.schema,
              lookupKey inst.fields f.name = lookupKey mirrorAttrs f.name)) :=
  ⟨rfl,
   C6_round_trip mirrorModel sampleFetchData mirrorAttrs emptyWorld rfl (by decide)
     (by decide) rfl (by intro b hb; simp [mirrorModel] at hb) rfl⟩

/-- C2: resolving the same URI twice without refresh never creates a second
entity for it: the first call either returns a dedup hit unchanged or
creates one entity carrying the URI; the second call finds that entity
through the dedup lookup and returns the same instance immediately, with
no fetch performed and the world untouched. -/
theorem C2_dedup_idempotence (m : ModelClass) (fetch : String → FetchOutcome) (uri : String)
    (w : World) (data : Obj)
    (hfetch : fetch uri = .ok data)
    (hid : lookupKey data "id" = some (.vstr uri))
    (hIgn : m.ignore_activity = none)
    (hinitOk : ∀ f ∈ m.schema,
      (lookupKey data f.name).isSome ∨ f.default.isSome ∨ f.default_factory.isSome)
    (hfindid : "id" ∈ m.schema.map FieldSpec.name)
    (hsb : (⟨"remote_id", "id"⟩ : Binding) ∈ m.simple_fields)
    (hsb2 : ∀ b ∈ m.simple_fields, b.model_field = "remote_id" → b.activity_field = "id")
    (hib : ∀ b ∈ m.image_fields, b.model_field ≠ "remote_id")
    (hmb : ∀ b ∈ m.many_to_many_fields, b.model_field ≠ "remote_id")
    (hwf : ∀ i ∈ w.store, ∀ n, i.pk = some n → n < w.nextPk) :
    ∃ e w1 ev1,
      resolve_remote_id m fetch uri false true w = (.ok (some e), w1, ev1)
      ∧ resolve_remote_id m fetch uri false true w1 = (.ok (some e), w1, [])
      ∧ (countURI w.store m.name uri = 0 → countURI w1.store m.name uri ≤ 1) := by
  cases hex : findExistingByRemoteId w.store m.name uri with
  | some e0 =>
    have hrun : resolve_remote_id m fetch uri false true w = (.ok (some e0), w, []) := by
      simp only [resolve_remote_id, hex]
      simp
    refine ⟨e0, w, [], hrun, hrun, ?_⟩
    intro h0
    omega
  | none =>
    have hinit := init_eq_map m.schema data hinitOk
    have hact : m.makeActivity data =
        .ok { cls := m.activity_serializer, attrs := m.schema.map (resolveField data) } := by
      simp [ModelClass.makeActivity, hinit]
    have hAid : lookupKey (m.schema.map (resolveField data)) "id" = some (.vstr uri) := by
      rw [lookup_map_resolveField]
      cases hfind : m.schema.find? (fun g => g.name = "id") with
      | none =>
        obtain ⟨f, hf, hfn⟩ := List.mem_map.mp hfindid
        have := List.find?_eq_none.mp hfind f hf
        simp [hfn] at this
      | some f =>
        have hf : f.name = "id" := by
          have := List.find?_some hfind
          simpa using this
        simp [resolveField, hf, hid]
    obtain ⟨inst, evs, hconv, hcls, hpk, hrid⟩ :=
      to_model_fresh_create m { cls := m.activity_serializer, attrs := m.schema.map (resolveField data) }
        w uri rfl hIgn hAid hex hsb hsb2 hib hmb hwf
    have hfe0 : m.find_existing w.store data = none := by
      unfold ModelClass.find_existing
      rw [hid]
      exact hex
    have hrun1 : resolve_remote_id m fetch uri false true w =
        (.ok (some inst),
         { store := w.store ++ [inst], nextPk := w.nextPk + 1,
           tasks := w.tasks ++ reverseTasks m inst
             (actWithContext { cls := m.activity_serializer, attrs := m.schema.map (resolveField data) }) },
         Ev.fetched uri :: evs) := by
      simp only [resolve_remote_id, hex, get_data, hfetch, hfe0, hact, hconv]
      simp
    have hfind2 : findExistingByRemoteId (w.store ++ [inst]) m.name uri = some inst := by
      unfold findExistingByRemoteId at hex ⊢
      rw [List.find?_append, hex]
      simp [List.find?, hcls, hrid]
    refine ⟨inst,
      { store := w.store ++ [inst], nextPk := w.nextPk + 1,
        tasks := w.tasks ++ reverseTasks m inst
          (actWithContext { cls := m.activity_serializer, attrs := m.schema.map (resolveField data) }) },
      Ev.fetched uri :: evs, hrun1, ?_, ?_⟩
    · simp only [resolve_remote_id, hfind2]
      simp
    · intro h0
      unfold countURI at h0 ⊢
      rw [List.filter_append]
      have hempty : w.store.filter
          (fun i => decide (i.cls = m.name ∧ lookupKey i.fields "remote_id" = some (.vstr uri))) = [] :=
        List.length_eq_zero.mp h0
      rw [hempty]
      simp [List.filter, hcls, hrid]

/-- C2 witness: two resolutions of the sample URI over the empty world. -/
theorem C2_dedup_idempotence_witness :
    sampleFetch "https://ex.org/a/1" = .ok sampleFetchData
    ∧ lookupKey sampleFetchData "id" = some (.vstr "https://ex.org/a/1")
    ∧ (∃ e w1 ev1,
      resolve_remote_id sampleModel sampleFetch "https://ex.org/a/1" false true emptyWorld =
        (.ok (some e), w1, ev1)
      ∧ resolve_remote_id sampleModel sampleFetch "https://ex.org/a/1" false true w1 =
        (.ok (some e), w1, [])
      ∧ (countURI emptyWorld.store sampleModel.name "https://ex.org/a/1" = 0 →
          countURI w1.store sampleModel.name "https://ex.org/a/1" ≤ 1)) :=
  ⟨rfl, rfl,
   C2_dedup_idempotence sampleModel sampleFetch "https://ex.org/a/1" emptyWorld sampleFetchData
     rfl rfl rfl (by decide) (by decide) (by decide) (by decide)
     (by intro b hb; simp [sampleModel] at hb)
     (by intro b hb; simp [sampleModel] at hb)
     (by intro i hi; simp [emptyWorld] at hi)⟩

theorem lookup_resolveField_key (schema : List FieldSpec) (kwargs : Obj) (k : String) (v : Val)
    (hfind : k ∈ schema.map FieldSpec.name) (hk : lookupKey kwargs k = some v) :
    lookupKey (schema.map (resolveField kwargs)) k = some v := by
  rw [lookup_map_resolveField]
  cases hf : schema.find? (fun g => g.name = k) with
  | none =>
    obtain ⟨f, hmem, hfn⟩ := List.mem_map.mp hfind
    have := List.find?_eq_none.mp hf f hmem
    simp [hfn] at this
  | some f =>
    have hfn : f.name = k := by simpa using List.find?_some hf
    simp [resolveField, hfn, hk]

theorem findExisting_append_no (s : Store) (i : Instance) (cls uri : String)
    (h : findExistingByRemoteId s cls uri = none)
    (hi : ¬(i.cls = cls ∧ lookupKey i.fields "remote_id" = some (.vstr uri))) :
    findExistingByRemoteId (s ++ [i]) cls uri = none := by
  unfold findExistingByRemoteId at h ⊢
  rw [List.find?_append, h]
  simp [List.find?, hi]

theorem mem_map_self {s : Store} {i : Instance} (f : Instance → Instance)
    (h : i ∈ s) (hf : f i = i) : i ∈ s.map f := by
  rw [← hf]
  exact List.mem_map_of_mem f h

theorem mem_map_to {s : Store} {i j : Instance} (f : Instance → Instance)
    (h : i ∈ s) (hf : f i = j) : j ∈ s.map f := by
  rw [← hf]
  exact List.mem_map_of_mem f h

theorem create_edition_success (c : Connector) (editionM : ModelClass) (work : Instance)
    (edata : Obj) (w : World) (euri : String) (wn : Nat)
    (hIgnE : editionM.ignore_activity = none)
    (hfindidE : "id" ∈ editionM.schema.map FieldSpec.name)
    (heid : lookupKey (insertKey (dict_from_mappings edata c.book_mappings) "work"
        ((lookupKey work.fields "remote_id").getD Val.vmissing)) "id" = some (.vstr euri))
    (hinitE : ∀ f ∈ editionM.schema,
      (lookupKey (insertKey (dict_from_mappings edata c.book_mappings) "work"
        ((lookupKey work.fields "remote_id").getD Val.vmissing)) f.name).isSome
      ∨ f.default.isSome ∨ f.default_factory.isSome)
    (hNoE : findExistingByRemoteId w.store editionM.name euri = none)
    (hsbE : (⟨"remote_id", "id"⟩ : Binding) ∈ editionM.simple_fields)
    (hsb2E : ∀ b ∈ editionM.simple_fields, b.model_field = "remote_id" → b.activity_field = "id")
    (hibE : ∀ b ∈ editionM.image_fields, b.model_field ≠ "remote_id")
    (hmbE : ∀ b ∈ editionM.many_to_many_fields, b.model_field ≠ "remote_id")
    (hwf : ∀ i ∈ w.store, ∀ n, i.pk = some n → n < w.nextPk)
    (hwork : work ∈ w.store)
    (hwpk : work.pk = some wn) :
    ∃ ed w' evs,
      create_edition_from_data c editionM work edata w = (.ok (some ed), w', evs)
      ∧ ed.cls = editionM.name
      ∧ lookupKey ed.fields "remote_id" = some (.vstr euri)
      ∧ ∃ wk ∈ w'.store, wk.cls = work.cls
          ∧ lookupKey wk.fields "remote_id" = lookupKey work.fields "remote_id" := by
  have hwn : wn < w.nextPk := hwf work hwork wn hwpk
  set mapped2 := insertKey (dict_from_mappings edata c.book_mappings) "work"
      ((lookupKey work.fields "remote_id").getD Val.vmissing) with hm2
  have hmake : editionM.makeActivity mapped2 =
      .ok { cls := editionM.activity_serializer, attrs := editionM.schema.map (resolveField mapped2) } := by
    simp [ModelClass.makeActivity, init_eq_map editionM.schema mapped2 hinitE]
  have hAidE : lookupKey (editionM.schema.map (resolveField mapped2)) "id" = some (.vstr euri) :=
    lookup_resolveField_key editionM.schema mapped2 "id" (.vstr euri) hfindidE heid
  obtain ⟨ed4, evs2, hconvE, hclsE4, hpkE4, hridE4⟩ :=
    to_model_fresh_create editionM
      { cls := editionM.activity_serializer, attrs := editionM.schema.map (resolveField mapped2) }
      w euri rfl hIgnE hAidE hNoE hsbE hsb2E hibE hmbE hwf
  set TT := w.tasks ++ reverseTasks editionM ed4 (actWithContext
    { cls := editionM.activity_serializer, attrs := editionM.schema.map (resolveField mapped2) })
    with hTT
  set ed1 : Instance := { ed4 with fields := insertKey ed4.fields "connector" (.vstr c.identifier) }
    with hed1
  have hpkE1 : ed1.pk = some w.nextPk := hpkE4
  have hclsE1 : ed1.cls = editionM.name := hclsE4
  have hridE1 : lookupKey ed1.fields "remote_id" = some (.vstr euri) := by
    rw [hed1]
    show lookupKey (insertKey ed4.fields "connector" (.vstr c.identifier)) "remote_id" = _
    rw [lookup_insert_other _ _ _ _ (by decide : ("connector" : String) ≠ "remote_id")]
    exact hridE4
  have hsaveE : saveInstance
      { store := w.store ++ [ed4], nextPk := w.nextPk + 1, tasks := TT } ed1 =
      (ed1, { store := w.store ++ [ed1], nextPk := w.nextPk + 1, tasks := TT }) := by
    simp only [saveInstance, hpkE4]
    have hm : (w.store ++ [ed4]).map (fun j => if j.pk = some w.nextPk then ed1 else j)
        = w.store ++ [ed1] := by
      rw [List.map_append]
      rw [map_fix w.store _ (fun j hj => if_neg (fun hc => by
        have := hwf j hj w.nextPk hc
        omega))]
      simp [hpkE4]
    rw [hm]
  set work2 : Instance := { work with fields := insertKey work.fields "default_edition" (pkVal ed1) }
    with hw2
  have hw2pk : work2.pk = some wn := hwpk
  have hw2cls : work2.cls = work.cls := rfl
  have hw2rid : lookupKey work2.fields "remote_id" = lookupKey work.fields "remote_id" := by
    rw [hw2]
    show lookupKey (insertKey work.fields "default_edition" (pkVal ed1)) "remote_id" = _
    exact lookup_insert_other _ _ _ _ (by decide)
  set ed3 := addAuthors ed1 (c.get_authors_from_data edata) with hed3
  have hclsE3 : ed3.cls = editionM.name := hclsE1
  have hpkE3 : ed3.pk = some w.nextPk := hpkE1
  have hridE3 : lookupKey ed3.fields "remote_id" = some (.vstr euri) := by
    rw [hed3]
    show lookupKey (insertKey ed1.fields "authors" _) "remote_id" = _
    rw [lookup_insert_other _ _ _ _ (by decide : ("authors" : String) ≠ "remote_id")]
    exact hridE1
  set edF := if (authorsOf ed3).isEmpty ∧ ¬(authorsOf work2).isEmpty
    then setAuthors ed3 (authorsOf work2) else ed3 with hedF
  have hclsF : edF.cls = editionM.name := by
    rw [hedF]
    by_cases hc : (authorsOf ed3).isEmpty ∧ ¬(authorsOf work2).isEmpty
    · rw [if_pos hc]
      exact hclsE3
    · rw [if_neg hc]
      exact hclsE3
  have hpkF : edF.pk = some w.nextPk := by
    rw [hedF]
    by_cases hc : (authorsOf ed3).isEmpty ∧ ¬(authorsOf work2).isEmpty
    · rw [if_pos hc]
      exact hpkE3
    · rw [if_neg hc]
      exact hpkE3
  have hridF : lookupKey edF.fields "remote_id" = some (.vstr euri) := by
    rw [hedF]
    by_cases hc : (authorsOf ed3).isEmpty ∧ ¬(authorsOf work2).isEmpty
    · rw [if_pos hc]
      show lookupKey (insertKey ed3.fields "authors" _) "remote_id" = _
      rw [lookup_insert_other _ _ _ _ (by decide : ("authors" : String) ≠ "remote_id")]
      exact hridE3
    · rw [if_neg hc]
      exact hridE3
  have hsaveW : saveInstance { store := w.store ++ [ed1], nextPk := w.nextPk + 1, tasks := TT } work2
      = (work2,
         { store := (w.store ++ [ed1]).map (fun j => if j.pk = some wn then work2 else j),
           nextPk := w.nextPk + 1, tasks := TT }) := by
    simp only [saveInstance, hwpk, hw2pk]
  refine ⟨edF,
    updateStoreRow (updateStoreRow
      { store := (w.store ++ [ed1]).map (fun j => if j.pk = some wn then work2 else j),
        nextPk := w.nextPk + 1, tasks := TT } ed3) edF,
    evs2, ?_, hclsF, hridF, ?_⟩
  · simp only [create_edition_from_data, ← hm2, hmake, hconvE, hsaveE, hsaveW,
      ← hed1, ← hw2, ← hed3, ← hedF]
  · refine ⟨work2, ?_, hw2cls, hw2rid⟩
    have hbase : work2 ∈ (w.store ++ [ed1]).map (fun j => if j.pk = some wn then work2 else j) :=
      mem_map_to _ (List.mem_append_left _ hwork) (by rw [if_pos hwpk])
    simp only [updateStoreRow]
    apply mem_map_self _ (by
      apply mem_map_self _ hbase
      rw [if_neg]
      intro hc
      rw [hw2pk, hpkE3] at hc
      have := hc.1
      simp at this
      omega)
    rw [if_neg]
    intro hc
    rw [hw2pk, hpkF] at hc
    have := hc.1
    simp at this
    omega

theorem updateStoreRow_append_last (s : Store) (npk bound : Nat) (tasks : List Task)
    (old new : Instance)
    (hbound : ∀ i ∈ s, ∀ n, i.pk = some n → n < bound)
    (hnew : new.pk = some bound)
    (hold1 : old.pk = new.pk) (hold2 : old.cls = new.cls) :
    updateStoreRow { store := s ++ [old], nextPk := npk, tasks := tasks } new
      = { store := s ++ [new], nextPk := npk, tasks := tasks } := by
  simp only [updateStoreRow, List.map_append]
  rw [map_fix s _ (fun j hj => if_neg (fun hc => by
    have := hbound j hj bound (by rw [hc.1, hnew])
    omega))]
  simp [hold1, hold2]

theorem bookFromParts_ext_irrel (c c' : Connector)
    (h1 : c'.book_mappings = c.book_mappings)
    (h2 : c'.get_authors_from_data = c.get_authors_from_data)
    (h3 : c'.identifier = c.identifier)
    (workM editionM : ModelClass) (fd wd ed : Obj) (uri : String) (w : World) :
    bookFromParts c' workM editionM fd wd ed uri w =
      bookFromParts c workM editionM fd wd ed uri w := by
  unfold bookFromParts create_edition_from_data
  rw [h1, h2, h3]

theorem get_or_create_book_run (c : Connector) (workM editionM : ModelClass)
    (fetch : String → FetchOutcome) (uri : String) (w : World) (data wd ed : Obj)
    (hNoEd : findExistingByRemoteId w.store editionM.name uri = none)
    (hNoWk : findExistingByRemoteId w.store workM.name uri = none)
    (hfetch : fetch uri = .ok data)
    (hsel : (if c.is_work_data data then
        ((dict_from_mappings data c.book_mappings),
         (match c.get_edition_from_work_data data with | .ok e => e | .error _ => data))
      else
        ((match c.get_work_from_edition_data data with
          | .ok wdd => dict_from_mappings wdd c.book_mappings
          | .error _ => dict_from_mappings data c.book_mappings), data)) = (wd, ed)) :
    AbstractConnector.get_or_create_book c workM editionM fetch uri w =
      (match bookFromParts c workM editionM data wd ed uri w with
       | (.error e, w', evs) => (.error e, { w with tasks := w'.tasks }, Ev.fetched uri :: evs)
       | (.ok r, w', evs) => (.ok r, w', Ev.fetched uri :: evs)) := by
  simp only [AbstractConnector.get_or_create_book, hNoEd, hNoWk, get_data, hfetch, hsel]
  cases hbp : bookFromParts c workM editionM data wd ed uri w with
  | mk r rest =>
    cases rest with
    | mk w' evs =>
      cases r with
      | error e => rfl
      | ok v => rfl

/-- C4: get_or_create_book classifies the fetched document with the
connector's work predicate and falls back on failed extraction: a
work-shaped document whose edition extraction raises behaves exactly as if
the extractor had returned the document itself, and an edition-shaped
document whose work extraction raises behaves exactly as if the extractor
had returned the document (whose mapping is the mapped document); an empty
work or edition payload fails the whole operation; and in the
edition-shaped-with-failing-extraction case the call succeeds, producing an
edition carrying the document's mapped canonical id and a work record
carrying that same id. -/
theorem C4_work_edition_fallback :
    (∀ (c : Connector) (workM editionM : ModelClass) (fetch : String → FetchOutcome)
        (uri : String) (w : World) (data : Obj),
      findExistingByRemoteId w.store editionM.name uri = none →
      findExistingByRemoteId w.store workM.name uri = none →
      fetch uri = .ok data →
      c.is_work_data data = true →
      c.get_edition_from_work_data data = .error () →
      AbstractConnector.get_or_create_book c workM editionM fetch uri w =
        AbstractConnector.get_or_create_book
          { c with get_edition_from_work_data := fun d => .ok d } workM editionM fetch uri w)
    ∧ (∀ (c : Connector) (workM editionM : ModelClass) (fetch : String → FetchOutcome)
        (uri : String) (w : World) (data : Obj),
      findExistingByRemoteId w.store editionM.name uri = none →
      findExistingByRemoteId w.store workM.name uri = none →
      fetch uri = .ok data →
      c.is_work_data data = false →
      c.get_work_from_edition_data data = .error () →
      AbstractConnector.get_or_create_book c workM editionM fetch uri w =
        AbstractConnector.get_or_create_book
          { c with get_work_from_edition_data := fun _ => .ok data } workM editionM fetch uri w)
    ∧ (∀ (c : Connector) (workM editionM : ModelClass) (fd wd ed : Obj) (uri : String) (w : World),
      wd = [] ∨ ed = [] →
      bookFromParts c workM editionM fd wd ed uri w =
        (.error (.connectorException ("Unable to load book data: " ++ uri)), w, []))
    ∧ (∀ (c : Connector) (workM editionM : ModelClass) (fetch : String → FetchOutcome)
        (uri wuri : String) (w : World) (data : Obj),
      findExistingByRemoteId w.store editionM.name uri = none →
      findExistingByRemoteId w.store workM.name uri = none →
      fetch uri = .ok data →
      c.is_work_data data = false →
      c.get_work_from_edition_data data = .error () →
      dict_from_mappings data c.book_mappings ≠ [] →
      data ≠ [] →
      lookupKey (dict_from_mappings data c.book_mappings) "id" = some (.vstr wuri) →
      workM.ignore_activity = none →
      editionM.ignore_activity = none →
      (∀ f ∈ workM.schema, (lookupKey (dict_from_mappings data c.book_mappings) f.name).isSome
        ∨ f.default.isSome ∨ f.default_factory.isSome) →
      (∀ f ∈ editionM.schema,
        (lookupKey (insertKey (dict_from_mappings data c.book_mappings) "work" (.vstr wuri)) f.name).isSome
        ∨ f.default.isSome ∨ f.default_factory.isSome) →
      "id" ∈ workM.schema.map FieldSpec.name →
      "id" ∈ editionM.schema.map FieldSpec.name →
      (⟨"remote_id", "id"⟩ : Binding) ∈ workM.simple_fields →
      (∀ b ∈ workM.simple_fields, b.model_field = "remote_id" → b.activity_field = "id") →
      (∀ b ∈ workM.image_fields, b.model_field ≠ "remote_id") →
      (∀ b ∈ workM.many_to_many_fields, b.model_field ≠ "remote_id") →
      (⟨"remote_id", "id"⟩ : Binding) ∈ editionM.simple_fields →
      (∀ b ∈ editionM.simple_fields, b.model_field = "remote_id" → b.activity_field = "id") →
      (∀ b ∈ editionM.image_fields, b.model_field ≠ "remote_id") →
      (∀ b ∈ editionM.many_to_many_fields, b.model_field ≠ "remote_id") →
      workM.name ≠ editionM.name →
      findExistingByRemoteId w.store workM.name wuri = none →
      findExistingByRemoteId w.store editionM.name wuri = none →
      (∀ i ∈ w.store, ∀ n, i.pk = some n → n < w.nextPk) →
      ∃ ed w' evs,
        AbstractConnector.get_or_create_book c workM editionM fetch uri w = (.ok (some ed), w', evs)
        ∧ ed.cls = editionM.name
        ∧ lookupKey ed.fields "remote_id" = some (.vstr wuri)
        ∧ ∃ wk ∈ w'.store, wk.cls = workM.name
            ∧ lookupKey wk.fields "remote_id" = some (.vstr wuri)) := by
  refine ⟨?_, ?_, ?_, ?_⟩
  · intro c workM editionM fetch uri w data hNoEd hNoWk hfetch hshape hext
    rw [get_or_create_book_run c workM editionM fetch uri w data
        (dict_from_mappings data c.book_mappings) data hNoEd hNoWk hfetch
        (by simp [hshape, hext]),
      get_or_create_book_run { c with get_edition_from_work_data := fun d => .ok d }
        workM editionM fetch uri w data (dict_from_mappings data c.book_mappings) data
        hNoEd hNoWk hfetch (by simp [hshape]),
      bookFromParts_ext_irrel c { c with get_edition_from_work_data := fun d => .ok d }
        rfl rfl rfl workM editionM data _ _ uri w]
  · intro c workM editionM fetch uri w data hNoEd hNoWk hfetch hshape hext
    rw [get_or_create_book_run c workM editionM fetch uri w data
        (dict_from_mappings data c.book_mappings) data hNoEd hNoWk hfetch
        (by simp [hshape, hext]),
      get_or_create_book_run { c with get_work_from_edition_data := fun _ => .ok data }
        workM editionM fetch uri w data (dict_from_mappings data c.book_mappings) data
        hNoEd hNoWk hfetch (by simp [hshape]),
      bookFromParts_ext_irrel c { c with get_work_from_edition_data := fun _ => .ok data }
        rfl rfl rfl workM editionM data _ _ uri w]
  · intro c workM editionM fd wd ed uri w h
    unfold bookFromParts
    rw [if_pos h]
  · intro c workM editionM fetch uri wuri w data hNoEd hNoWk hfetch hshape hext hmne hdne hmid
      hIgnW hIgnE hinitW hinitE hfindidW hfindidE hsbW hsb2W hibW hmbW hsbE hsb2E hibE hmbE
      hMN hNoW2 hNoE2 hwf
    rw [get_or_create_book_run c workM editionM fetch uri w data
        (dict_from_mappings data c.book_mappings) data hNoEd hNoWk hfetch
        (by simp [hshape, hext])]
    set mapped := dict_from_mappings data c.book_mappings with hmapped
    have hne : ¬(mapped = [] ∨ data = []) := by
      intro hc
      rcases hc with hc | hc
      · exact hmne hc
      · exact hdne hc
    have hmakeW : workM.makeActivity mapped =
        .ok { cls := workM.activity_serializer, attrs := workM.schema.map (resolveField mapped) } := by
      simp [ModelClass.makeActivity, init_eq_map workM.schema mapped hinitW]
    have hAidW := lookup_resolveField_key workM.schema mapped "id" (.vstr wuri) hfindidW hmid
    obtain ⟨work4, evs1, hconvW, hclsW4, hpkW4, hridW4⟩ :=
      to_model_fresh_create workM
        { cls := workM.activity_serializer, attrs := workM.schema.map (resolveField mapped) }
        w wuri rfl hIgnW hAidW hNoW2 hsbW hsb2W hibW hmbW hwf
    set TT1 := w.tasks ++ reverseTasks workM work4 (actWithContext
      { cls := workM.activity_serializer, attrs := workM.schema.map (resolveField mapped) })
      with hTT1
    set work1 := addAuthors work4 (c.get_authors_from_data data) with hwork1
    have hclsW1 : work1.cls = workM.name := hclsW4
    have hpkW1 : work1.pk = some w.nextPk := hpkW4
    have hridW1 : lookupKey work1.fields "remote_id" = some (.vstr wuri) := by
      rw [hwork1]
      show lookupKey (insertKey work4.fields "authors" _) "remote_id" = _
      rw [lookup_insert_other _ _ _ _ (by decide : ("authors" : String) ≠ "remote_id")]
      exact hridW4
    have hupd : updateStoreRow
        { store := w.store ++ [work4], nextPk := w.nextPk + 1, tasks := TT1 } work1
        = { store := w.store ++ [work1], nextPk := w.nextPk + 1, tasks := TT1 } :=
      updateStoreRow_append_last w.store (w.nextPk + 1) w.nextPk TT1 work4 work1 hwf hpkW1
        (by rw [hpkW4, hpkW1]) rfl
    have hw2wf : ∀ i ∈ w.store ++ [work1], ∀ n, i.pk = some n → n < w.nextPk + 1 := by
      intro i hi n hn
      rcases List.mem_append.mp hi with hi | hi
      · have := hwf i hi n hn
        omega
      · have hieq : i = work1 := by simpa using hi
        rw [hieq, hpkW1] at hn
        have : w.nextPk = n := by simpa using hn
        omega
    have hgetD : (lookupKey work1.fields "remote_id").getD Val.vmissing = .vstr wuri := by
      rw [hridW1]
      rfl
    have heid : lookupKey (insertKey mapped "work"
        ((lookupKey work1.fields "remote_id").getD Val.vmissing)) "id" = some (.vstr wuri) := by
      rw [hgetD, lookup_insert_other _ _ _ _ (by decide : ("work" : String) ≠ "id")]
      exact hmid
    have hinitE' : ∀ f ∈ editionM.schema,
        (lookupKey (insertKey mapped "work"
          ((lookupKey work1.fields "remote_id").getD Val.vmissing)) f.name).isSome
        ∨ f.default.isSome ∨ f.default_factory.isSome := by
      intro f hf
      rw [hgetD]
      exact hinitE f hf
    have hNoE' : findExistingByRemoteId (w.store ++ [work1]) editionM.name wuri = none :=
      findExisting_append_no _ _ _ _ hNoE2 (fun hc => hMN (hclsW1.symm.trans hc.1))
    have hworkmem : work1 ∈ w.store ++ [work1] :=
      List.mem_append_right _ (List.mem_singleton.mpr rfl)
    obtain ⟨ed, w', evs3, hcreate, hclsE, hridE, wk, hwkmem, hwkcls, hwkrid⟩ :=
      create_edition_success c editionM work1 data
        { store := w.store ++ [work1], nextPk := w.nextPk + 1, tasks := TT1 } wuri w.nextPk
        hIgnE hfindidE heid hinitE' hNoE' hsbE hsb2E hibE hmbE hw2wf hworkmem hpkW1
    have hbook : bookFromParts c workM editionM data mapped data uri w =
        (.ok (some ed), w', evs1 ++ evs3) := by
      simp only [bookFromParts, if_neg hne, hmakeW, hconvW, hupd, ← hwork1, hcreate]
    rw [hbook]
    exact ⟨ed, w', Ev.fetched uri :: (evs1 ++ evs3), rfl, hclsE, hridE, wk, hwkmem,
      hwkcls.trans hclsW1, hwkrid.trans hridW1⟩

/-- C4 witness: the edition-shaped document with raising work extraction,
resolved through the sample catalog connector over the empty world. -/
theorem C4_work_edition_fallback_witness :
    bookFetch "https://openlibrary.org/books/OL1M" = .ok bookData
    ∧ bookConnector.is_work_data bookData = false
    ∧ bookConnector.get_work_from_edition_data bookData = .error ()
    ∧ (∃ ed w' evs,
      AbstractConnector.get_or_create_book bookConnector workModel editionModel bookFetch
          "https://openlibrary.org/books/OL1M" emptyWorld = (.ok (some ed), w', evs)
      ∧ ed.cls = editionModel.name
      ∧ lookupKey ed.fields "remote_id" = some (.vstr "https://openlibrary.org/books/OL1M")
      ∧ ∃ wk ∈ w'.store, wk.cls = workModel.name
          ∧ lookupKey wk.fields "remote_id" = some (.vstr "https://openlibrary.org/books/OL1M")) :=
  ⟨rfl, rfl, rfl,
   C4_work_edition_fallback.2.2.2 bookConnector workModel editionModel bookFetch
     "https://openlibrary.org/books/OL1M" "https://openlibrary.org/books/OL1M" emptyWorld bookData
     rfl rfl rfl rfl rfl (by decide) (by decide) rfl rfl rfl
     (by decide) (by decide) (by decide) (by decide)
     (by decide) (by decide) (by decide) (by decide)
     (by decide) (by decide) (by decide) (by decide)
     (by decide) rfl rfl (by decide)⟩

end BookWyrm
